import Mathlib

/-!
Shallow embedding of the tick-driven spiking-network simulator and its 1-D
world from `binary_rstdp.cpp` (the main simulator translation unit: the
parameter block, `DigitalSynapse`, `DigitalNeuron`, `SpikingNet::step`,
`World::spawn_target`, `World::get_sensors`, `World::update`).

Modelling conventions:
* C++ `int` fields are modelled as `Int`; vector indices as `Nat`.
* `std::vector` is modelled as `List`; out-of-range reads return an explicit
  default element (the C++ code only indexes in range on well-formed nets).
* The Mersenne-twister draws consumed by the world are passed in explicitly
  as `SpawnDraws`; the range of each draw mirrors the C++ distribution.
* C++ `>>= 1` on the non-negative confidence is arithmetic shift, i.e. floor
  division by two, which is exactly `Int` division `/ 2` here.
-/

/-- Neuron parameter `V_THRESH` of the simulator unit. -/
def V_THRESH : Int := 2

/-- Neuron parameter `V_REST`. -/
def V_REST : Int := 0

/-- Neuron parameter `REFRACTORY_PERIOD`. -/
def REFRACTORY_PERIOD : Int := 1

/-- Neuron parameter `MEMBRANE_DECAY_PERIOD`. -/
def MEMBRANE_DECAY_PERIOD : Int := 750

/-- Synapse parameter `CONFIDENCE_MAX`. -/
def CONFIDENCE_MAX : Int := 5

/-- Synapse parameter `CONFIDENCE_THR`. -/
def CONFIDENCE_THR : Int := 1

/-- Synapse parameter `SPIKE_TRACE_WINDOW`. -/
def SPIKE_TRACE_WINDOW : Int := 10

/-- Synapse parameter `ELIGIBILITY_TRACE_WINDOW`. -/
def ELIGIBILITY_TRACE_WINDOW : Int := 1000

/-- Synapse parameter `CONFIDENCE_LEAK_PERIOD`. -/
def CONFIDENCE_LEAK_PERIOD : Int := 5300

/-- Simulation constant `WORLD_SIZE`. -/
def WORLD_SIZE : Int := 30

/-- Simulation constant `BRAIN_SIZE` (4 sensors + 2 motors + 30 hidden). -/
def BRAIN_SIZE : Nat := 36

/-- History depth `DigitalNeuron::MAX_HIST`. -/
def MAX_HIST : Nat := 32

/-- One entry of `DigitalNeuron::Contribution`: which synapse (source row,
synapse index within the row) delivered a conducting spike. -/
structure Contribution where
  from_row : Nat
  syn_idx : Nat
deriving DecidableEq, Repr, Inhabited

/-- State of `DigitalSynapse` (simulator unit: with leak timer and
highlight flag). -/
structure DigitalSynapse where
  target_neuron_idx : Nat
  confidence : Int
  active : Bool
  ltp_timer : Int
  ltd_timer : Int
  eligible_for_LTP : Bool
  eligible_for_LTD : Bool
  eligibility_ltp_timer : Int
  eligibility_ltd_timer : Int
  confidence_leak_timer : Int
  highlighted : Bool
deriving DecidableEq, Repr

/-- State of `DigitalNeuron`, including the causal-tracing history. -/
structure DigitalNeuron where
  id : Nat
  voltage : Int
  refractory_timer : Int
  spiked_this_step : Bool
  input_buffer : Int
  leak_timer : Int
  next_contributors : List Contribution
  contrib_history : List (List Contribution)
  spike_history : List Bool
deriving DecidableEq, Repr

/-- State of `SpikingNet`. -/
structure SpikingNet where
  neurons : List DigitalNeuron
  connections : List (List DigitalSynapse)
  global_tick : Int
deriving DecidableEq, Repr

/-- Default synapse used for (unreachable) out-of-range reads. -/
def defaultSynapse : DigitalSynapse :=
  { target_neuron_idx := 0, confidence := 0, active := false,
    ltp_timer := 0, ltd_timer := 0,
    eligible_for_LTP := false, eligible_for_LTD := false,
    eligibility_ltp_timer := 0, eligibility_ltd_timer := 0,
    confidence_leak_timer := 0, highlighted := false }

/-- Default neuron used for (unreachable) out-of-range reads. -/
def defaultNeuron : DigitalNeuron :=
  { id := 0, voltage := 0, refractory_timer := 0, spiked_this_step := false,
    input_buffer := 0, leak_timer := MEMBRANE_DECAY_PERIOD,
    next_contributors := [], contrib_history := [], spike_history := [] }

/-- Read element `i` of a list, with an explicit default. -/
def nthD {α : Type} : List α → Nat → α → α
  | [], _, d => d
  | a :: _, 0, _ => a
  | _ :: as, n+1, d => nthD as n d

/-- Replace element `i` of a list in place (no-op past the end), mirroring a
C++ write through `operator[]`. -/
def modifyIdx {α : Type} : List α → Nat → (α → α) → List α
  | [], _, _ => []
  | a :: as, 0, f => f a :: as
  | a :: as, n+1, f => a :: modifyIdx as n f

/-- Read `neurons[k]`. -/
def getNeuron (net : SpikingNet) (k : Nat) : DigitalNeuron :=
  nthD net.neurons k defaultNeuron

/-- Read `connections[i]`. -/
def getRow (net : SpikingNet) (i : Nat) : List DigitalSynapse :=
  nthD net.connections i []

/-- Read `connections[i][j]`. -/
def getSyn (net : SpikingNet) (i j : Nat) : DigitalSynapse :=
  nthD (getRow net i) j defaultSynapse

/-- Write through `neurons[k]`. -/
def modifyNeuron (net : SpikingNet) (k : Nat) (f : DigitalNeuron → DigitalNeuron) : SpikingNet :=
  { net with neurons := modifyIdx net.neurons k f }

/-- Write through `connections[i][j]`. -/
def modifySyn (net : SpikingNet) (i j : Nat) (f : DigitalSynapse → DigitalSynapse) : SpikingNet :=
  { net with connections := modifyIdx net.connections i (fun row => modifyIdx row j f) }

/-- Iterate an index-taking body over `0, 1, ..., n-1` in order, exactly like
the C++ `for` loops over vector indices. -/
def iterFold {β : Type} (f : β → Nat → β) : Nat → β → β
  | 0, b => b
  | n+1, b => f (iterFold f n b) n

/-- The `DigitalSynapse(target, init_conf)` constructor. -/
def mkSynapse (target : Nat) (init_conf : Int) : DigitalSynapse :=
  { target_neuron_idx := target, confidence := init_conf,
    active := decide (CONFIDENCE_THR ≤ init_conf),
    ltp_timer := 0, ltd_timer := 0,
    eligible_for_LTP := false, eligible_for_LTD := false,
    eligibility_ltp_timer := 0, eligibility_ltd_timer := 0,
    confidence_leak_timer := CONFIDENCE_LEAK_PERIOD, highlighted := false }

/-- The `DigitalNeuron(id)` constructor. -/
def mkNeuron (i : Nat) : DigitalNeuron :=
  { id := i, voltage := 0, refractory_timer := 0, spiked_this_step := false,
    input_buffer := 0, leak_timer := MEMBRANE_DECAY_PERIOD,
    next_contributors := [],
    contrib_history := List.replicate MAX_HIST [],
    spike_history := List.replicate MAX_HIST false }

/-- The `SpikingNet(num_neurons)` constructor. -/
def SpikingNet.init (num_neurons : Nat) : SpikingNet :=
  { neurons := (List.range num_neurons).map mkNeuron,
    connections := (List.range num_neurons).map (fun _ => []),
    global_tick := 0 }

/-- Append a synapse to row `pre`, as done by the deterministic part of
`connect_randomly` (`connections[pre].emplace_back(post, conf)`). -/
def addSynapse (net : SpikingNet) (pre post : Nat) (init_conf : Int) : SpikingNet :=
  { net with connections := modifyIdx net.connections pre (fun row => row ++ [mkSynapse post init_conf]) }

/-- Clear the per-tick highlight flag (phase 0 of `step`). -/
def clearHighlight (s : DigitalSynapse) : DigitalSynapse :=
  { s with highlighted := false }

/-- Shift of `contrib_history` / `spike_history` done at the start of `step`:
slot 0 receives the previous tick's pending `next_contributors` and
`spiked_this_step`, older slots move one step deeper, the oldest is dropped. -/
def shiftHistory (n : DigitalNeuron) : DigitalNeuron :=
  { n with
    contrib_history := (n.next_contributors :: n.contrib_history).take MAX_HIST,
    spike_history := (n.spiked_this_step :: n.spike_history).take MAX_HIST,
    next_contributors := [] }

/-- Phase 0 of `step`: reset all highlights, then shift every neuron's
history. -/
def phase0 (net : SpikingNet) : SpikingNet :=
  { net with
    connections := net.connections.map (List.map clearHighlight),
    neurons := net.neurons.map shiftHistory }

/-- Membrane integration and threshold test of phase 1 (`step`, "1. Update
neurons", non-refractory branch up to the threshold check). Returns the
updated neuron and the `potential_changed` flag. -/
def integrateAndFire (sensory_input : List Int) (n : DigitalNeuron) : DigitalNeuron × Bool :=
  let ext := sensory_input.getD n.id 0
  let pc0 := decide (0 < n.input_buffer) || decide (0 < ext)
  let v := n.voltage + n.input_buffer + (if 0 < ext then V_THRESH else 0)
  if V_THRESH ≤ v then
    ({ n with spiked_this_step := true, voltage := V_REST,
              refractory_timer := REFRACTORY_PERIOD, input_buffer := 0 }, true)
  else
    ({ n with spiked_this_step := false, voltage := v, input_buffer := 0 }, pc0)

/-- Membrane leak bookkeeping at the end of phase 1 for a non-refractory
neuron: `leak_timer` is refreshed on activity, otherwise counts down and
decrements a positive voltage on expiry. -/
def applyLeakRule (p : DigitalNeuron × Bool) : DigitalNeuron :=
  if p.2 then { p.1 with leak_timer := MEMBRANE_DECAY_PERIOD }
  else if V_REST < p.1.voltage then
    (if p.1.leak_timer - 1 ≤ 0 then
      { p.1 with voltage := p.1.voltage - 1, leak_timer := MEMBRANE_DECAY_PERIOD }
     else { p.1 with leak_timer := p.1.leak_timer - 1 })
  else { p.1 with leak_timer := MEMBRANE_DECAY_PERIOD }

/-- Phase 1 of `step` for a single neuron: refractory handling, integration,
threshold and leak. -/
def updateNeuron (sensory_input : List Int) (n : DigitalNeuron) : DigitalNeuron :=
  if 0 < n.refractory_timer then
    { n with spiked_this_step := false, refractory_timer := n.refractory_timer - 1,
             voltage := V_REST, input_buffer := 0, leak_timer := MEMBRANE_DECAY_PERIOD }
  else
    applyLeakRule (integrateAndFire sensory_input n)

/-- Phase 1 of `step` over all neurons. -/
def phase1 (sensory_input : List Int) (net : SpikingNet) : SpikingNet :=
  { net with neurons := net.neurons.map (updateNeuron sensory_input) }

/-- Decay of the pre/post spike traces (`ltp_timer`, `ltd_timer`). -/
def decaySpikeTraces (s : DigitalSynapse) : DigitalSynapse :=
  let s1 := if 0 < s.ltp_timer then { s with ltp_timer := s.ltp_timer - 1 } else s
  if 0 < s1.ltd_timer then { s1 with ltd_timer := s1.ltd_timer - 1 } else s1

/-- Decay of the eligibility traces; a flag is cleared when its timer hits
zero. -/
def decayEligibilityTraces (s : DigitalSynapse) : DigitalSynapse :=
  let s1 :=
    if 0 < s.eligibility_ltp_timer then
      { s with eligibility_ltp_timer := s.eligibility_ltp_timer - 1,
               eligible_for_LTP :=
                 if s.eligibility_ltp_timer - 1 = 0 then false else s.eligible_for_LTP }
    else s
  if 0 < s1.eligibility_ltd_timer then
    { s1 with eligibility_ltd_timer := s1.eligibility_ltd_timer - 1,
              eligible_for_LTD :=
                if s1.eligibility_ltd_timer - 1 = 0 then false else s1.eligible_for_LTD }
  else s1

/-- Trace creation on pre- and post-synaptic spikes: a pre spike (re)arms the
LTP trace and latches LTD eligibility if the post trace is live; a post spike
(re)arms the LTD trace and latches LTP eligibility if the pre trace is live. -/
def createTraces (pre_spiked post_spiked : Bool) (s : DigitalSynapse) : DigitalSynapse :=
  let s1 :=
    if pre_spiked then
      let t := { s with ltp_timer := SPIKE_TRACE_WINDOW }
      if 0 < t.ltd_timer then
        { t with eligible_for_LTD := true, eligibility_ltd_timer := ELIGIBILITY_TRACE_WINDOW }
      else t
    else s
  if post_spiked then
    let t := { s1 with ltd_timer := SPIKE_TRACE_WINDOW }
    if 0 < t.ltp_timer then
      { t with eligible_for_LTP := true, eligibility_ltp_timer := ELIGIBILITY_TRACE_WINDOW }
    else t
  else s1

/-- The learning block of `step`: the reward arm (LTP reinforcement, then LTD
depression, as two successive `if`s) or else the penalty arm (LTP depression;
LTD+penalty deliberately ignored except for clearing the LTD eligibility). -/
def applyReinforcement (reward_active penalty_active : Bool) (s : DigitalSynapse) : DigitalSynapse :=
  if reward_active then
    let s1 :=
      if s.eligible_for_LTP ∧ s.confidence < CONFIDENCE_MAX then
        { s with confidence := s.confidence + 1,
                 active := decide (CONFIDENCE_THR ≤ s.confidence + 1),
                 eligible_for_LTP := false, eligibility_ltp_timer := 0,
                 confidence_leak_timer := CONFIDENCE_LEAK_PERIOD }
      else s
    if s1.eligible_for_LTD ∧ 0 < s1.confidence then
      { s1 with confidence := s1.confidence - 1,
                active := decide (CONFIDENCE_THR ≤ s1.confidence - 1),
                eligible_for_LTD := false, eligibility_ltd_timer := 0,
                confidence_leak_timer := CONFIDENCE_LEAK_PERIOD }
    else s1
  else if penalty_active then
    let s1 :=
      if s.eligible_for_LTP ∧ 0 < s.confidence then
        { s with confidence := s.confidence - 1,
                 active := decide (CONFIDENCE_THR ≤ s.confidence - 1),
                 eligible_for_LTP := false, eligibility_ltp_timer := 0,
                 confidence_leak_timer := CONFIDENCE_LEAK_PERIOD }
      else s
    if s1.eligible_for_LTD then
      { s1 with eligible_for_LTD := false, eligibility_ltd_timer := 0 }
    else s1
  else s

/-- The slow confidence leak: the leak timer counts down; at zero the
confidence is halved (arithmetic shift) and the timer restarts. -/
def applyConfidenceLeak (s : DigitalSynapse) : DigitalSynapse :=
  let s1 :=
    if 0 < s.confidence_leak_timer then
      { s with confidence_leak_timer := s.confidence_leak_timer - 1 }
    else s
  if s1.confidence_leak_timer = 0 then
    { s1 with confidence := s1.confidence / 2,
              active := decide (CONFIDENCE_THR ≤ s1.confidence / 2),
              confidence_leak_timer := CONFIDENCE_LEAK_PERIOD }
  else s1

/-- The full per-synapse plasticity body of phase 2 (everything the C++ code
runs under `!is_fixed`): trace decay, eligibility decay, trace creation,
reward/penalty learning and the slow leak, in source order. -/
def updateSynapsePlasticity (pre_spiked post_spiked reward_active penalty_active : Bool)
    (s : DigitalSynapse) : DigitalSynapse :=
  applyConfidenceLeak
    (applyReinforcement reward_active penalty_active
      (createTraces pre_spiked post_spiked
        (decayEligibilityTraces
          (decaySpikeTraces s))))

/-- The fixed-wire test `(i < 4) || (target >= 4 && target < 6)` guarding the
plasticity block. -/
def isFixedConn (i target : Nat) : Prop :=
  i < 4 ∨ (4 ≤ target ∧ target < 6)

instance (i target : Nat) : Decidable (isFixedConn i target) := by
  unfold isFixedConn; infer_instance

/-- One iteration of phase 2 for synapse `j` of source row `i`: deliver the
spike through an active synapse (buffer increment plus contributor record on
the target), then, unless the synapse is fixed, run the plasticity body. -/
def deliverAndLearn (reward_active penalty_active : Bool) (net : SpikingNet) (i j : Nat) : SpikingNet :=
  let syn := getSyn net i j
  let pre_spiked := (getNeuron net i).spiked_this_step
  let net1 :=
    if pre_spiked && syn.active then
      modifyNeuron net syn.target_neuron_idx (fun t =>
        { t with input_buffer := t.input_buffer + 1,
                 next_contributors := t.next_contributors ++ [⟨i, j⟩] })
    else net
  let post_spiked := (getNeuron net1 syn.target_neuron_idx).spiked_this_step
  if isFixedConn i syn.target_neuron_idx then net1
  else modifySyn net1 i j (fun _ =>
    updateSynapsePlasticity pre_spiked post_spiked reward_active penalty_active syn)

/-- Phase 2 over one source row. -/
def phase2Row (reward_active penalty_active : Bool) (net : SpikingNet) (i : Nat) : SpikingNet :=
  iterFold (fun acc j => deliverAndLearn reward_active penalty_active acc i j)
    (getRow net i).length net

/-- Phase 2 over all source rows. -/
def phase2 (reward_active penalty_active : Bool) (net : SpikingNet) : SpikingNet :=
  iterFold (fun acc i => phase2Row reward_active penalty_active acc i)
    net.neurons.length net

/-- Processing of one contribution list inside `trace_causal_chain`: set the
highlight of each contributing synapse and recurse (through `k`) into sources
that themselves spiked at the matching depth. -/
def traceContribs (k : SpikingNet → Nat → SpikingNet) (depth : Nat) :
    SpikingNet → List Contribution → SpikingNet
  | net, [] => net
  | net, c :: rest =>
    let net1 := modifySyn net c.from_row c.syn_idx (fun s => { s with highlighted := true })
    let net2 :=
      if (getNeuron net1 c.from_row).spike_history.getD depth false then k net1 c.from_row
      else net1
    traceContribs k depth net2 rest

/-- The recursive `trace_causal_chain(n_idx, depth)`. The explicit fuel only
bounds the recursion depth; the C++ guard `depth >= MAX_HIST` always fires
before fuel `MAX_HIST + 1` runs out, so the fuel is semantically inert. -/
def traceCausalChain : Nat → SpikingNet → Nat → Nat → SpikingNet
  | 0, net, _, _ => net
  | fuel+1, net, n_idx, depth =>
    if MAX_HIST ≤ depth then net
    else
      traceContribs (fun m idx => traceCausalChain fuel m idx (depth + 1)) depth net
        ((getNeuron net n_idx).contrib_history.getD depth [])

/-- Phases of `SpikingNet::step` up to and including neuron integration:
tick increment, highlight reset, history shift, neuron update. -/
def afterIntegration (net : SpikingNet) (sensory_input : List Int) : SpikingNet :=
  phase1 sensory_input (phase0 { net with global_tick := net.global_tick + 1 })

/-- The full `SpikingNet::step(sensory_input, reward_active, penalty_active)`:
tick increment, history shift, neuron update, propagation with plasticity,
then causal tracing from each motor (4, 5) that spiked. -/
def step (net : SpikingNet) (sensory_input : List Int)
    (reward_active penalty_active : Bool) : SpikingNet :=
  let net3 := phase2 reward_active penalty_active (afterIntegration net sensory_input)
  let net4 :=
    if (getNeuron net3 4).spiked_this_step then traceCausalChain (MAX_HIST + 1) net3 4 0
    else net3
  if (getNeuron net4 5).spiked_this_step then traceCausalChain (MAX_HIST + 1) net4 5 0
  else net4

/-- Run `step` over a list of per-tick inputs `(sensory_input, reward,
penalty)`, oldest first. -/
def runNet (net : SpikingNet) : List (List Int × Bool × Bool) → SpikingNet
  | [] => net
  | (inp, r, p) :: rest => runNet (step net inp r p) rest

/-- Spike outcome of neuron `k` in the tick `step net sensory_input _ _`:
phase 1 runs on the history-shifted neuron (the shift touches no field that
the integration reads). -/
def firedThisTick (net : SpikingNet) (sensory_input : List Int) (k : Nat) : Bool :=
  (updateNeuron sensory_input (shiftHistory (getNeuron net k))).spiked_this_step

/-- The target kind of the world (`enum TargetType`). -/
inductive TargetType
  | NONE
  | FOOD
  | DANGER
deriving DecidableEq, Repr, Inhabited

/-- Result record of `World::update`. -/
structure WorldUpdateResult where
  reward : Bool
  penalty : Bool
deriving DecidableEq, Repr, Inhabited

/-- State of `World` (the `std::mt19937 rng` member is replaced by the
explicit `SpawnDraws` passed to the operations that consume randomness). -/
structure World where
  size : Int
  agent_pos : Int
  target_pos : Int
  target_type : TargetType
  target_timer : Int
  food_eaten : Int
  danger_hit : Int
deriving DecidableEq, Repr

/-- The random values one call of `spawn_target` consumes: `choice` from
`uniform_int_distribution(0, 2)`, `lifetime` from
`uniform_int_distribution(3000, 5000)`, and `pos` from
`uniform_int_distribution(0, agent_pos - 1)` (only consumed when
`choice ≠ 2`). -/
structure SpawnDraws where
  choice : Int
  lifetime : Int
  pos : Int
deriving DecidableEq, Repr, Inhabited

/-- Ranges of the distributions `spawn_target` draws from; `pos` is drawn
after the agent has been reset to `size / 2`, from `[0, size / 2 - 1]`. -/
def SpawnDrawsOK (w : World) (d : SpawnDraws) : Prop :=
  0 ≤ d.choice ∧ d.choice ≤ 2 ∧ 3000 ≤ d.lifetime ∧ d.lifetime ≤ 5000 ∧
    0 ≤ d.pos ∧ d.pos ≤ w.size / 2 - 1

instance (w : World) (d : SpawnDraws) : Decidable (SpawnDrawsOK w d) := by
  unfold SpawnDrawsOK; infer_instance

/-- The `World()` constructor (`target_pos` is left uninitialized by the C++
constructor and never read before `spawn_target` writes it; it is pinned to 0
here). -/
def World.init : World :=
  { size := WORLD_SIZE, agent_pos := WORLD_SIZE / 2, target_pos := 0,
    target_type := TargetType.NONE, target_timer := 0,
    food_eaten := 0, danger_hit := 0 }

/-- `World::spawn_target`: set the new lifetime, reset the agent to the
centre, then either clear the target (`choice == 2`) or make it FOOD
(`choice == 0`) / DANGER (otherwise) at the drawn position strictly left of
the reset agent. -/
def spawn_target (w : World) (d : SpawnDraws) : World :=
  let w1 := { w with target_timer := d.lifetime, agent_pos := w.size / 2 }
  if d.choice = 2 then { w1 with target_type := TargetType.NONE }
  else
    { w1 with
      target_type := if d.choice = 0 then TargetType.FOOD else TargetType.DANGER,
      target_pos := d.pos }

/-- `World::get_sensors`: four bits (FoodLeft, FoodRight, DangerLeft,
DangerRight). -/
def get_sensors (w : World) : List Int :=
  if w.target_type = TargetType.NONE then [0, 0, 0, 0]
  else
    let is_left := w.target_pos < w.agent_pos
    if w.target_type = TargetType.FOOD then
      [if is_left then 1 else 0, if is_left then 0 else 1, 0, 0]
    else
      [0, 0, if is_left then 1 else 0, if is_left then 0 else 1]

/-- Helper for the reward/penalty comparison of `World::update` on a FOOD
target: reward on approach, penalty on retreat. -/
def foodOutcome (curr_dist prev_dist : Int) : WorldUpdateResult :=
  if curr_dist < prev_dist then ⟨true, false⟩
  else if prev_dist < curr_dist then ⟨false, true⟩
  else ⟨false, false⟩

/-- Helper for the reward/penalty comparison of `World::update` on a DANGER
target: reward on retreat, penalty on approach. -/
def dangerOutcome (curr_dist prev_dist : Int) : WorldUpdateResult :=
  if prev_dist < curr_dist then ⟨true, false⟩
  else if curr_dist < prev_dist then ⟨false, true⟩
  else ⟨false, false⟩

/-- Block of `World::update` that respawns an expired target
(`if (target_timer <= 0) spawn_target();`). -/
def spawnIfExpired (w : World) (d : SpawnDraws) : World :=
  if w.target_timer ≤ 0 then spawn_target w d else w

/-- The `prev_dist` snapshot of `World::update`: distance to the target, or
-1 when there is none. -/
def prevDist (w : World) : Int :=
  if w.target_type ≠ TargetType.NONE then |w.agent_pos - w.target_pos| else -1

/-- Block of `World::update` that drifts the agent one cell toward the
centre when no target exists. -/
def driftIfNoTarget (w : World) : World :=
  if w.target_type ≠ TargetType.NONE then w
  else
    let mid := w.size / 2
    if w.agent_pos < mid then { w with agent_pos := w.agent_pos + 1 }
    else if mid < w.agent_pos then { w with agent_pos := w.agent_pos - 1 }
    else w

/-- Motor block of `World::update`: unclamped moves. -/
def applyMovement (w : World) (move_left move_right : Bool) : World :=
  let w1 := if move_left then { w with agent_pos := w.agent_pos - 1 } else w
  if move_right then { w1 with agent_pos := w1.agent_pos + 1 } else w1

/-- Reward/penalty block of `World::update`, including the collision branch
that forces exactly one of the flags, bumps the counter and recentres the
agent, keeping the target. -/
def scoreAndCollide (w : World) (prev_dist : Int) : WorldUpdateResult × World :=
  if w.target_type ≠ TargetType.NONE then
    let curr_dist := |w.agent_pos - w.target_pos|
    let res :=
      if w.target_type = TargetType.FOOD then foodOutcome curr_dist prev_dist
      else dangerOutcome curr_dist prev_dist
    if curr_dist = 0 then
      if w.target_type = TargetType.FOOD then
        (⟨true, false⟩, { w with food_eaten := w.food_eaten + 1, agent_pos := w.size / 2 })
      else
        (⟨false, true⟩, { w with danger_hit := w.danger_hit + 1, agent_pos := w.size / 2 })
    else (res, w)
  else (⟨false, false⟩, w)

/-- Target-timer countdown at the end of `World::update`; the target clears
when the timer reaches zero. -/
def tickTargetTimer (w : World) : World :=
  if 0 < w.target_timer then
    let w1 : World := { w with target_timer := w.target_timer - 1 }
    if w1.target_timer ≤ 0 then { w1 with target_type := TargetType.NONE } else w1
  else w

/-- `World::update(move_left, move_right)`: spawn on expired timer, remember
the previous distance (or drift toward the centre when no target), apply the
unclamped movement, compute reward/penalty from the distance change, handle
collision, then count the target timer down. Returns the result together
with the new world state. -/
def World.update (w : World) (move_left move_right : Bool) (d : SpawnDraws) :
    WorldUpdateResult × World :=
  let w0 := spawnIfExpired w d
  let pd := prevDist w0
  let w1 := driftIfNoTarget w0
  let w2 := applyMovement w1 move_left move_right
  let rw := scoreAndCollide w2 pd
  (rw.1, tickTargetTimer rw.2)

/-! Basic lemmas about the list helpers. -/

theorem nthD_ge {α : Type} (l : List α) (k : Nat) (d : α) (h : l.length ≤ k) :
    nthD l k d = d := by
  induction l generalizing k with
  | nil => cases k <;> rfl
  | cons a as ih =>
    cases k with
    | zero => simp at h
    | succ m => exact ih m (by simpa using h)

theorem nthD_map {α β : Type} (f : α → β) (l : List α) (k : Nat) (d : α) (e : β)
    (h : k < l.length) : nthD (l.map f) k e = f (nthD l k d) := by
  induction l generalizing k with
  | nil => simp at h
  | cons a as ih =>
    cases k with
    | zero => rfl
    | succ m => exact ih m (by simpa using h)

theorem length_modifyIdx {α : Type} (l : List α) (i : Nat) (f : α → α) :
    (modifyIdx l i f).length = l.length := by
  induction l generalizing i with
  | nil => rfl
  | cons a as ih => cases i with
    | zero => rfl
    | succ m => simpa [modifyIdx] using ih m

theorem modifyIdx_ge {α : Type} (l : List α) (i : Nat) (f : α → α) (h : l.length ≤ i) :
    modifyIdx l i f = l := by
  induction l generalizing i with
  | nil => rfl
  | cons a as ih =>
    cases i with
    | zero => simp at h
    | succ m => simp [modifyIdx, ih m (by simpa using h)]

theorem nthD_modifyIdx_self {α : Type} (l : List α) (i : Nat) (f : α → α) (d : α)
    (h : i < l.length) : nthD (modifyIdx l i f) i d = f (nthD l i d) := by
  induction l generalizing i with
  | nil => simp at h
  | cons a as ih =>
    cases i with
    | zero => rfl
    | succ m => exact ih m (by simpa using h)

theorem nthD_modifyIdx_ne {α : Type} (l : List α) (i k : Nat) (f : α → α) (d : α)
    (h : i ≠ k) : nthD (modifyIdx l i f) k d = nthD l k d := by
  induction l generalizing i k with
  | nil => rfl
  | cons a as ih =>
    cases i with
    | zero => cases k with
      | zero => exact absurd rfl h
      | succ m => rfl
    | succ m =>
      cases k with
      | zero => rfl
      | succ n => exact ih m n (by omega)

/-! Projections collecting the synapse fields other than `highlighted` and
the neuron fields other than `input_buffer` / `next_contributors` (the only
fields phase 2 of `step` may change on a neuron). -/

/-- All `DigitalSynapse` fields except the transient `highlighted` flag. -/
def synCore (s : DigitalSynapse) :
    Nat × Int × Bool × Int × Int × Bool × Bool × Int × Int × Int :=
  (s.target_neuron_idx, s.confidence, s.active, s.ltp_timer, s.ltd_timer,
   s.eligible_for_LTP, s.eligible_for_LTD, s.eligibility_ltp_timer,
   s.eligibility_ltd_timer, s.confidence_leak_timer)

/-- All `DigitalNeuron` fields except `input_buffer` and
`next_contributors`. -/
def neuronCore (n : DigitalNeuron) :
    Nat × Int × Int × Bool × Int × List (List Contribution) × List Bool :=
  (n.id, n.voltage, n.refractory_timer, n.spiked_this_step, n.leak_timer,
   n.contrib_history, n.spike_history)

theorem synCore_target {a b : DigitalSynapse} (h : synCore a = synCore b) :
    a.target_neuron_idx = b.target_neuron_idx := congrArg (fun t => t.1) h

theorem synCore_confidence {a b : DigitalSynapse} (h : synCore a = synCore b) :
    a.confidence = b.confidence := congrArg (fun t => t.2.1) h

theorem synCore_active {a b : DigitalSynapse} (h : synCore a = synCore b) :
    a.active = b.active := congrArg (fun t => t.2.2.1) h

theorem synCore_eligLTP {a b : DigitalSynapse} (h : synCore a = synCore b) :
    a.eligible_for_LTP = b.eligible_for_LTP := congrArg (fun t => t.2.2.2.2.2.1) h

theorem synCore_eligLTD {a b : DigitalSynapse} (h : synCore a = synCore b) :
    a.eligible_for_LTD = b.eligible_for_LTD := congrArg (fun t => t.2.2.2.2.2.2.1) h

theorem synCore_eligLTDTimer {a b : DigitalSynapse} (h : synCore a = synCore b) :
    a.eligibility_ltd_timer = b.eligibility_ltd_timer :=
  congrArg (fun t => t.2.2.2.2.2.2.2.2.1) h

theorem neuronCore_voltage {a b : DigitalNeuron} (h : neuronCore a = neuronCore b) :
    a.voltage = b.voltage := congrArg (fun t => t.2.1) h

theorem neuronCore_refr {a b : DigitalNeuron} (h : neuronCore a = neuronCore b) :
    a.refractory_timer = b.refractory_timer := congrArg (fun t => t.2.2.1) h

theorem neuronCore_spiked {a b : DigitalNeuron} (h : neuronCore a = neuronCore b) :
    a.spiked_this_step = b.spiked_this_step := congrArg (fun t => t.2.2.2.1) h

theorem neuronCore_contribHistory {a b : DigitalNeuron} (h : neuronCore a = neuronCore b) :
    a.contrib_history = b.contrib_history := congrArg (fun t => t.2.2.2.2.2.1) h

theorem neuronCore_spikeHistory {a b : DigitalNeuron} (h : neuronCore a = neuronCore b) :
    a.spike_history = b.spike_history := congrArg (fun t => t.2.2.2.2.2.2) h

theorem synCore_clearHighlight (s : DigitalSynapse) : synCore (clearHighlight s) = synCore s := rfl

/-! Per-block lemmas about the plasticity body. -/

/-- The range-and-activation invariant each synapse must satisfy. -/
def synInv (s : DigitalSynapse) : Prop :=
  0 ≤ s.confidence ∧ s.confidence ≤ CONFIDENCE_MAX ∧
    (s.active = true ↔ CONFIDENCE_THR ≤ s.confidence)

instance (s : DigitalSynapse) : Decidable (synInv s) := by
  unfold synInv; infer_instance

theorem decaySpikeTraces_frame (s : DigitalSynapse) :
    (decaySpikeTraces s).target_neuron_idx = s.target_neuron_idx ∧
    (decaySpikeTraces s).confidence = s.confidence ∧
    (decaySpikeTraces s).active = s.active ∧
    (decaySpikeTraces s).highlighted = s.highlighted := by
  simp only [decaySpikeTraces]
  split_ifs <;> simp

theorem decayEligibilityTraces_frame (s : DigitalSynapse) :
    (decayEligibilityTraces s).target_neuron_idx = s.target_neuron_idx ∧
    (decayEligibilityTraces s).confidence = s.confidence ∧
    (decayEligibilityTraces s).active = s.active ∧
    (decayEligibilityTraces s).highlighted = s.highlighted := by
  simp only [decayEligibilityTraces]
  split_ifs <;> simp

theorem createTraces_frame (a b : Bool) (s : DigitalSynapse) :
    (createTraces a b s).target_neuron_idx = s.target_neuron_idx ∧
    (createTraces a b s).confidence = s.confidence ∧
    (createTraces a b s).active = s.active ∧
    (createTraces a b s).highlighted = s.highlighted := by
  simp only [createTraces]
  split_ifs <;> simp

theorem applyReinforcement_frame (r p : Bool) (s : DigitalSynapse) :
    (applyReinforcement r p s).target_neuron_idx = s.target_neuron_idx ∧
    (applyReinforcement r p s).highlighted = s.highlighted := by
  simp only [applyReinforcement]
  split_ifs <;> simp

theorem applyConfidenceLeak_frame (s : DigitalSynapse) :
    (applyConfidenceLeak s).target_neuron_idx = s.target_neuron_idx ∧
    (applyConfidenceLeak s).highlighted = s.highlighted := by
  simp only [applyConfidenceLeak]
  split_ifs <;> simp

theorem updateSynapsePlasticity_target (a b r p : Bool) (s : DigitalSynapse) :
    (updateSynapsePlasticity a b r p s).target_neuron_idx = s.target_neuron_idx := by
  simp only [updateSynapsePlasticity]
  rw [(applyConfidenceLeak_frame _).1, (applyReinforcement_frame _ _ _).1,
    (createTraces_frame _ _ _).1, (decayEligibilityTraces_frame _).1,
    (decaySpikeTraces_frame _).1]

theorem applyReinforcement_synInv (r p : Bool) (s : DigitalSynapse) (h : synInv s) :
    synInv (applyReinforcement r p s) := by
  rcases h with ⟨h0, h1, h2⟩
  simp only [applyReinforcement, synInv] at *
  split_ifs with c1 c2 c3 c4 c5 c6 <;>
    simp_all [decide_eq_true_eq] <;> omega

theorem applyConfidenceLeak_synInv (s : DigitalSynapse) (h : synInv s) :
    synInv (applyConfidenceLeak s) := by
  rcases h with ⟨h0, h1, h2⟩
  simp only [applyConfidenceLeak, synInv] at *
  split_ifs with c1 c2 c3 <;> simp_all [decide_eq_true_eq] <;>
    simp_all [CONFIDENCE_MAX, CONFIDENCE_THR] <;> omega

theorem updateSynapsePlasticity_synInv (a b r p : Bool) (s : DigitalSynapse) (h : synInv s) :
    synInv (updateSynapsePlasticity a b r p s) := by
  have hd : synInv (decaySpikeTraces s) := by
    have := decaySpikeTraces_frame s
    unfold synInv at *; rw [this.2.1, this.2.2.1]; exact h
  have he : synInv (decayEligibilityTraces (decaySpikeTraces s)) := by
    have := decayEligibilityTraces_frame (decaySpikeTraces s)
    unfold synInv at *; rw [this.2.1, this.2.2.1]; exact hd
  have hc : synInv (createTraces a b (decayEligibilityTraces (decaySpikeTraces s))) := by
    have := createTraces_frame a b (decayEligibilityTraces (decaySpikeTraces s))
    unfold synInv at *; rw [this.2.1, this.2.2.1]; exact he
  exact applyConfidenceLeak_synInv _ (applyReinforcement_synInv r p _ hc)

theorem synInv_clearHighlight (s : DigitalSynapse) (h : synInv s) :
    synInv (clearHighlight s) := h

theorem synInv_defaultSynapse : synInv defaultSynapse := by decide

/-! Lemmas about phase 1 (neuron update). -/

theorem updateNeuron_keeps_hist (inp : List Int) (n : DigitalNeuron) :
    (updateNeuron inp n).id = n.id ∧
    (updateNeuron inp n).contrib_history = n.contrib_history ∧
    (updateNeuron inp n).spike_history = n.spike_history ∧
    (updateNeuron inp n).next_contributors = n.next_contributors := by
  simp only [updateNeuron, applyLeakRule, integrateAndFire]
  split_ifs <;> simp

theorem updateNeuron_refr_voltage (inp : List Int) (n : DigitalNeuron)
    (h : 0 ≤ n.refractory_timer) :
    0 ≤ (updateNeuron inp n).refractory_timer ∧
    (0 < (updateNeuron inp n).refractory_timer → (updateNeuron inp n).voltage = V_REST) := by
  simp only [updateNeuron, applyLeakRule, integrateAndFire]
  split_ifs <;> simp_all [REFRACTORY_PERIOD, V_REST] <;> omega

theorem updateNeuron_spikes (inp : List Int) (n : DigitalNeuron)
    (hr : n.refractory_timer ≤ 0) (hv : 0 ≤ n.voltage) (hb : 0 ≤ n.input_buffer)
    (hx : 0 < inp.getD n.id 0) :
    (updateNeuron inp n).spiked_this_step = true := by
  simp only [updateNeuron, applyLeakRule, integrateAndFire]
  split_ifs <;> simp_all [V_THRESH] <;> omega

/-! Characterizations of phases 0 and 1 and of `afterIntegration`. -/

theorem phase0_connections (net : SpikingNet) :
    (phase0 net).connections = net.connections.map (List.map clearHighlight) := rfl

theorem phase0_neurons (net : SpikingNet) :
    (phase0 net).neurons = net.neurons.map shiftHistory := rfl

theorem getSyn_phase0 (net : SpikingNet) (i j : Nat) :
    getSyn (phase0 net) i j = clearHighlight (getSyn net i j) := by
  unfold getSyn getRow
  rw [phase0_connections]
  by_cases hi : i < net.connections.length
  · rw [nthD_map (List.map clearHighlight) net.connections i [] [] hi]
    by_cases hj : j < (nthD net.connections i []).length
    · rw [nthD_map clearHighlight _ j defaultSynapse defaultSynapse hj]
    · rw [nthD_ge _ _ _ (by simpa using not_lt.mp hj), nthD_ge _ _ _ (not_lt.mp hj)]
      rfl
  · rw [nthD_ge (net.connections.map (List.map clearHighlight)) i [] (by simpa using not_lt.mp hi),
      nthD_ge net.connections i [] (not_lt.mp hi)]
    rfl

theorem getNeuron_phase0 (net : SpikingNet) (k : Nat) (h : k < net.neurons.length) :
    getNeuron (phase0 net) k = shiftHistory (getNeuron net k) := by
  unfold getNeuron
  rw [phase0_neurons]
  exact nthD_map shiftHistory net.neurons k defaultNeuron defaultNeuron h

theorem getNeuron_phase1 (inp : List Int) (net : SpikingNet) (k : Nat)
    (h : k < net.neurons.length) :
    getNeuron (phase1 inp net) k = updateNeuron inp (getNeuron net k) := by
  unfold getNeuron phase1
  exact nthD_map (updateNeuron inp) net.neurons k defaultNeuron defaultNeuron h

theorem phase0_shape (net : SpikingNet) :
    (phase0 net).neurons.length = net.neurons.length ∧
    (phase0 net).connections.length = net.connections.length ∧
    ∀ i, (getRow (phase0 net) i).length = (getRow net i).length := by
  refine ⟨by rw [phase0_neurons]; simp, by rw [phase0_connections]; simp, fun i => ?_⟩
  unfold getRow
  rw [phase0_connections]
  by_cases hi : i < net.connections.length
  · rw [nthD_map (List.map clearHighlight) net.connections i [] [] hi]
    simp
  · rw [nthD_ge (net.connections.map (List.map clearHighlight)) i [] (by simpa using not_lt.mp hi),
      nthD_ge net.connections i [] (not_lt.mp hi)]

theorem phase1_shape (inp : List Int) (net : SpikingNet) :
    (phase1 inp net).neurons.length = net.neurons.length ∧
    (phase1 inp net).connections = net.connections :=
  ⟨by simp [phase1], rfl⟩

theorem afterIntegration_shape (net : SpikingNet) (inp : List Int) :
    (afterIntegration net inp).neurons.length = net.neurons.length ∧
    (afterIntegration net inp).connections.length = net.connections.length ∧
    ∀ i, (getRow (afterIntegration net inp) i).length = (getRow net i).length := by
  unfold afterIntegration
  have h0 := phase0_shape { net with global_tick := net.global_tick + 1 }
  have h1 := phase1_shape inp (phase0 { net with global_tick := net.global_tick + 1 })
  refine ⟨by rw [h1.1]; exact h0.1, by rw [h1.2]; exact h0.2.1, fun i => ?_⟩
  have hrow : getRow (phase1 inp (phase0 { net with global_tick := net.global_tick + 1 })) i
      = getRow (phase0 { net with global_tick := net.global_tick + 1 }) i := by
    unfold getRow; rw [h1.2]
  rw [hrow]
  exact h0.2.2 i

theorem getSyn_afterIntegration (net : SpikingNet) (inp : List Int) (i j : Nat) :
    getSyn (afterIntegration net inp) i j = clearHighlight (getSyn net i j) := by
  unfold afterIntegration
  have h1 : getSyn (phase1 inp (phase0 { net with global_tick := net.global_tick + 1 })) i j
      = getSyn (phase0 { net with global_tick := net.global_tick + 1 }) i j := by
    unfold getSyn getRow; rw [(phase1_shape _ _).2]
  rw [h1, getSyn_phase0]
  rfl

theorem getNeuron_afterIntegration (net : SpikingNet) (inp : List Int) (k : Nat)
    (h : k < net.neurons.length) :
    getNeuron (afterIntegration net inp) k = updateNeuron inp (shiftHistory (getNeuron net k)) := by
  unfold afterIntegration
  rw [getNeuron_phase1 inp _ k (by rw [(phase0_shape _).1]; exact h),
    getNeuron_phase0 { net with global_tick := net.global_tick + 1 } k h]
  rfl

/-! Point lemmas about the write helpers. -/

/-- Spike flag of neuron `k` in a given state. -/
def spikedFlag (net : SpikingNet) (k : Nat) : Bool :=
  (getNeuron net k).spiked_this_step

theorem getNeuron_modifyNeuron_ne (net : SpikingNet) (t k : Nat)
    (f : DigitalNeuron → DigitalNeuron) (h : t ≠ k) :
    getNeuron (modifyNeuron net t f) k = getNeuron net k :=
  nthD_modifyIdx_ne net.neurons t k f defaultNeuron h

theorem getNeuron_modifyNeuron_self (net : SpikingNet) (t : Nat)
    (f : DigitalNeuron → DigitalNeuron) (h : t < net.neurons.length) :
    getNeuron (modifyNeuron net t f) t = f (getNeuron net t) :=
  nthD_modifyIdx_self net.neurons t f defaultNeuron h

theorem modifyNeuron_ge (net : SpikingNet) (t : Nat)
    (f : DigitalNeuron → DigitalNeuron) (h : net.neurons.length ≤ t) :
    modifyNeuron net t f = net := by
  unfold modifyNeuron
  rw [modifyIdx_ge net.neurons t f h]

theorem modifyNeuron_connections (net : SpikingNet) (t : Nat)
    (f : DigitalNeuron → DigitalNeuron) :
    (modifyNeuron net t f).connections = net.connections := rfl

theorem modifySyn_neurons (net : SpikingNet) (i j : Nat)
    (f : DigitalSynapse → DigitalSynapse) :
    (modifySyn net i j f).neurons = net.neurons := rfl

theorem rowlen_lt_connections (net : SpikingNet) (i j : Nat)
    (h : j < (getRow net i).length) : i < net.connections.length := by
  by_contra hc
  rw [show getRow net i = [] from nthD_ge net.connections i [] (not_lt.mp hc)] at h
  simp at h

theorem modifySyn_connections (net : SpikingNet) (i j : Nat)
    (f : DigitalSynapse → DigitalSynapse) :
    (modifySyn net i j f).connections
      = modifyIdx net.connections i (fun row => modifyIdx row j f) := rfl

theorem getSyn_modifySyn_ne (net : SpikingNet) (i j i' j' : Nat)
    (f : DigitalSynapse → DigitalSynapse) (h : ¬(i = i' ∧ j = j')) :
    getSyn (modifySyn net i j f) i' j' = getSyn net i' j' := by
  unfold getSyn getRow
  rw [modifySyn_connections]
  by_cases hii : i = i'
  · subst hii
    have hjj : j ≠ j' := fun e => h ⟨rfl, e⟩
    by_cases hi : i < net.connections.length
    · rw [nthD_modifyIdx_self net.connections i _ [] hi,
        nthD_modifyIdx_ne _ j j' f defaultSynapse hjj]
    · rw [modifyIdx_ge net.connections i _ (not_lt.mp hi)]
  · rw [nthD_modifyIdx_ne net.connections i i' _ [] hii]

theorem getSyn_modifySyn_self (net : SpikingNet) (i j : Nat)
    (f : DigitalSynapse → DigitalSynapse) (hj : j < (getRow net i).length) :
    getSyn (modifySyn net i j f) i j = f (getSyn net i j) := by
  have hi : i < net.connections.length := rowlen_lt_connections net i j hj
  unfold getSyn getRow
  rw [modifySyn_connections, nthD_modifyIdx_self net.connections i _ [] hi]
  exact nthD_modifyIdx_self _ j f defaultSynapse hj

theorem getRow_modifySyn_len (net : SpikingNet) (i j : Nat)
    (f : DigitalSynapse → DigitalSynapse) (i' : Nat) :
    (getRow (modifySyn net i j f) i').length = (getRow net i').length := by
  unfold getRow
  rw [modifySyn_connections]
  by_cases hii : i = i'
  · subst hii
    by_cases hi : i < net.connections.length
    · rw [nthD_modifyIdx_self net.connections i _ [] hi, length_modifyIdx]
    · rw [modifyIdx_ge net.connections i _ (not_lt.mp hi)]
  · rw [nthD_modifyIdx_ne net.connections i i' _ [] hii]

theorem modifySyn_connections_length (net : SpikingNet) (i j : Nat)
    (f : DigitalSynapse → DigitalSynapse) :
    (modifySyn net i j f).connections.length = net.connections.length :=
  length_modifyIdx net.connections i _

/-! Lemmas about one phase-2 iteration. -/

theorem getSyn_modifyNeuron (net : SpikingNet) (t : Nat)
    (f : DigitalNeuron → DigitalNeuron) (a b : Nat) :
    getSyn (modifyNeuron net t f) a b = getSyn net a b := rfl

theorem getRow_modifyNeuron (net : SpikingNet) (t : Nat)
    (f : DigitalNeuron → DigitalNeuron) (a : Nat) :
    getRow (modifyNeuron net t f) a = getRow net a := rfl

theorem getNeuron_modifySyn (net : SpikingNet) (i j : Nat)
    (f : DigitalSynapse → DigitalSynapse) (k : Nat) :
    getNeuron (modifySyn net i j f) k = getNeuron net k := rfl

theorem neuronCore_modifyNeuron (net : SpikingNet) (t k : Nat)
    (f : DigitalNeuron → DigitalNeuron) (hf : ∀ n, neuronCore (f n) = neuronCore n) :
    neuronCore (getNeuron (modifyNeuron net t f) k) = neuronCore (getNeuron net k) := by
  by_cases hk : t = k
  · subst hk
    by_cases hl : t < net.neurons.length
    · rw [getNeuron_modifyNeuron_self net t f hl, hf]
    · rw [modifyNeuron_ge net t f (not_lt.mp hl)]
  · rw [getNeuron_modifyNeuron_ne net t k f hk]

theorem spiked_modifyNeuron (net : SpikingNet) (t k : Nat)
    (f : DigitalNeuron → DigitalNeuron) (hf : ∀ n, neuronCore (f n) = neuronCore n) :
    (getNeuron (modifyNeuron net t f) k).spiked_this_step
      = (getNeuron net k).spiked_this_step :=
  neuronCore_spiked (neuronCore_modifyNeuron net t k f hf)

theorem deliverAndLearn_neuronCore (r p : Bool) (net : SpikingNet) (i j k : Nat) :
    neuronCore (getNeuron (deliverAndLearn r p net i j) k) = neuronCore (getNeuron net k) := by
  simp only [deliverAndLearn]
  split
  · split
    · exact neuronCore_modifyNeuron net _ k _ (fun n => rfl)
    · rfl
  · rw [getNeuron_modifySyn]
    split
    · exact neuronCore_modifyNeuron net _ k _ (fun n => rfl)
    · rfl

theorem deliverAndLearn_spiked (r p : Bool) (net : SpikingNet) (i j k : Nat) :
    spikedFlag (deliverAndLearn r p net i j) k = spikedFlag net k :=
  neuronCore_spiked (deliverAndLearn_neuronCore r p net i j k)

theorem deliverAndLearn_shape (r p : Bool) (net : SpikingNet) (i j : Nat) :
    (deliverAndLearn r p net i j).connections.length = net.connections.length ∧
    (∀ i', (getRow (deliverAndLearn r p net i j) i').length = (getRow net i').length) ∧
    (deliverAndLearn r p net i j).neurons.length = net.neurons.length := by
  simp only [deliverAndLearn]
  split
  · split
    · exact ⟨rfl, fun i' => rfl, length_modifyIdx _ _ _⟩
    · exact ⟨rfl, fun i' => rfl, rfl⟩
  · refine ⟨?_, fun i' => ?_, ?_⟩
    · rw [modifySyn_connections_length]
      split
      · rfl
      · rfl
    · rw [getRow_modifySyn_len]
      split
      · rfl
      · rfl
    · rw [show ∀ (Y : SpikingNet) g, (modifySyn Y i j g).neurons = Y.neurons from fun Y g => rfl]
      split
      · exact length_modifyIdx _ _ _
      · rfl

theorem deliverAndLearn_syn_ne (r p : Bool) (net : SpikingNet) (i j i' j' : Nat)
    (h : ¬(i = i' ∧ j = j')) :
    getSyn (deliverAndLearn r p net i j) i' j' = getSyn net i' j' := by
  simp only [deliverAndLearn]
  split
  · split
    · rfl
    · rfl
  · rw [getSyn_modifySyn_ne _ i j i' j' _ h]
    split
    · rfl
    · rfl

theorem deliverAndLearn_syn_self (r p : Bool) (net : SpikingNet) (i j : Nat)
    (hj : j < (getRow net i).length) :
    getSyn (deliverAndLearn r p net i j) i j =
      (if isFixedConn i (getSyn net i j).target_neuron_idx then getSyn net i j
       else updateSynapsePlasticity (spikedFlag net i)
         (spikedFlag net (getSyn net i j).target_neuron_idx) r p (getSyn net i j)) := by
  simp only [deliverAndLearn, spikedFlag]
  split
  · split
    · rfl
    · rfl
  · split
    · rw [getSyn_modifySyn_self _ i j _ (by exact hj),
        spiked_modifyNeuron net _ _ _ (by intro n; rfl)]
    · rw [getSyn_modifySyn_self _ i j _ (by exact hj)]

/-! Characterization of phase 2: every valid synapse is rewritten exactly
once, by the plasticity body applied to its pre-phase-2 value with the spike
flags computed in phase 1; everything else about the synapses is untouched,
and no neuron field outside `input_buffer` / `next_contributors` changes. -/

/-- The value synapse `(i, j)` must have after phase 2 runs on `net`. -/
def phase2Expected (reward_active penalty_active : Bool) (net : SpikingNet) (i j : Nat) :
    DigitalSynapse :=
  if isFixedConn i (getSyn net i j).target_neuron_idx then getSyn net i j
  else
    updateSynapsePlasticity (spikedFlag net i)
      (spikedFlag net (getSyn net i j).target_neuron_idx)
      reward_active penalty_active (getSyn net i j)

theorem phase2RowAux (r p : Bool) (net : SpikingNet) (i : Nat) (L : Nat) :
    (∀ k, neuronCore (getNeuron (iterFold (fun acc j => deliverAndLearn r p acc i j) L net) k)
        = neuronCore (getNeuron net k)) ∧
    (iterFold (fun acc j => deliverAndLearn r p acc i j) L net).connections.length
        = net.connections.length ∧
    (∀ i', (getRow (iterFold (fun acc j => deliverAndLearn r p acc i j) L net) i').length
        = (getRow net i').length) ∧
    (iterFold (fun acc j => deliverAndLearn r p acc i j) L net).neurons.length
        = net.neurons.length ∧
    (∀ i' j', ¬(i' = i ∧ j' < L) →
        getSyn (iterFold (fun acc j => deliverAndLearn r p acc i j) L net) i' j'
          = getSyn net i' j') ∧
    (∀ j, j < L → j < (getRow net i).length →
        getSyn (iterFold (fun acc j => deliverAndLearn r p acc i j) L net) i j
          = phase2Expected r p net i j) := by
  induction L with
  | zero =>
    exact ⟨fun k => rfl, rfl, fun i' => rfl, rfl, fun i' j' _ => rfl,
      fun j hj _ => absurd hj (by omega)⟩
  | succ L ih =>
    obtain ⟨ihc, ihl, ihrow, ihn, ihun, ihdone⟩ := ih
    simp only [iterFold]
    refine ⟨fun k => (deliverAndLearn_neuronCore r p _ i L k).trans (ihc k),
      (deliverAndLearn_shape r p _ i L).1.trans ihl,
      fun i' => ((deliverAndLearn_shape r p _ i L).2.1 i').trans (ihrow i'),
      (deliverAndLearn_shape r p _ i L).2.2.trans ihn,
      fun i' j' h => ?_, fun j hj hrow => ?_⟩
    · have h1 : ¬(i = i' ∧ L = j') := by
        rintro ⟨e1, e2⟩
        exact h ⟨e1.symm, by omega⟩
      rw [deliverAndLearn_syn_ne r p _ i L i' j' h1]
      exact ihun i' j' (by rintro ⟨e, hl⟩; exact h ⟨e, by omega⟩)
    · rcases Nat.lt_succ_iff_lt_or_eq.mp hj with hlt | heq
      · have h1 : ¬(i = i ∧ L = j) := by rintro ⟨_, e⟩; omega
        rw [deliverAndLearn_syn_ne r p _ i L i j h1]
        exact ihdone j hlt hrow
      · subst heq
        have hrowM : j < (getRow (iterFold (fun acc j => deliverAndLearn r p acc i j) j net) i).length := by
          rw [ihrow i]; exact hrow
        rw [deliverAndLearn_syn_self r p _ i j hrowM]
        have hsyn : getSyn (iterFold (fun acc j => deliverAndLearn r p acc i j) j net) i j
            = getSyn net i j := ihun i j (by rintro ⟨_, hl⟩; omega)
        have hsf : ∀ k, spikedFlag (iterFold (fun acc j => deliverAndLearn r p acc i j) j net) k
            = spikedFlag net k := fun k => neuronCore_spiked (ihc k)
        simp only [phase2Expected]
        rw [hsyn, hsf, hsf]

theorem phase2Row_spec (r p : Bool) (net : SpikingNet) (i : Nat) :
    (∀ k, neuronCore (getNeuron (phase2Row r p net i) k) = neuronCore (getNeuron net k)) ∧
    (phase2Row r p net i).connections.length = net.connections.length ∧
    (∀ i', (getRow (phase2Row r p net i) i').length = (getRow net i').length) ∧
    (phase2Row r p net i).neurons.length = net.neurons.length ∧
    (∀ i' j', ¬(i' = i ∧ j' < (getRow net i).length) →
        getSyn (phase2Row r p net i) i' j' = getSyn net i' j') ∧
    (∀ j, j < (getRow net i).length →
        getSyn (phase2Row r p net i) i j = phase2Expected r p net i j) := by
  have h := phase2RowAux r p net i (getRow net i).length
  exact ⟨h.1, h.2.1, h.2.2.1, h.2.2.2.1, h.2.2.2.2.1,
    fun j hj => h.2.2.2.2.2 j hj hj⟩

theorem phase2NetAux (r p : Bool) (net : SpikingNet) (K : Nat) :
    (∀ k, neuronCore (getNeuron (iterFold (fun acc i => phase2Row r p acc i) K net) k)
        = neuronCore (getNeuron net k)) ∧
    (iterFold (fun acc i => phase2Row r p acc i) K net).connections.length
        = net.connections.length ∧
    (∀ i', (getRow (iterFold (fun acc i => phase2Row r p acc i) K net) i').length
        = (getRow net i').length) ∧
    (iterFold (fun acc i => phase2Row r p acc i) K net).neurons.length = net.neurons.length ∧
    (∀ i j, K ≤ i →
        getSyn (iterFold (fun acc i => phase2Row r p acc i) K net) i j = getSyn net i j) ∧
    (∀ i j, (getRow net i).length ≤ j →
        getSyn (iterFold (fun acc i => phase2Row r p acc i) K net) i j = getSyn net i j) ∧
    (∀ i, i < K → ∀ j, j < (getRow net i).length →
        getSyn (iterFold (fun acc i => phase2Row r p acc i) K net) i j
          = phase2Expected r p net i j) := by
  induction K with
  | zero =>
    exact ⟨fun k => rfl, rfl, fun i' => rfl, rfl, fun i j _ => rfl, fun i j _ => rfl,
      fun i hi => absurd hi (by omega)⟩
  | succ K ih =>
    obtain ⟨ihc, ihl, ihrow, ihn, ihhi, ihoor, ihdone⟩ := ih
    simp only [iterFold]
    have hrs := phase2Row_spec r p (iterFold (fun acc i => phase2Row r p acc i) K net) K
    refine ⟨fun k => (hrs.1 k).trans (ihc k),
      hrs.2.1.trans ihl,
      fun i' => (hrs.2.2.1 i').trans (ihrow i'),
      hrs.2.2.2.1.trans ihn,
      fun i j hi => ?_, fun i j hj => ?_, fun i hi j hj => ?_⟩
    · rw [hrs.2.2.2.2.1 i j (by rintro ⟨e, _⟩; omega)]
      exact ihhi i j (by omega)
    · by_cases hiK : i = K
      · subst hiK
        rw [hrs.2.2.2.2.1 i j (by rintro ⟨_, hl⟩; rw [ihrow i] at hl; omega)]
        exact ihoor i j hj
      · rw [hrs.2.2.2.2.1 i j (by rintro ⟨e, _⟩; exact hiK e)]
        exact ihoor i j hj
    · by_cases hiK : i = K
      · subst hiK
        have hjM : j < (getRow (iterFold (fun acc i => phase2Row r p acc i) i net) i).length := by
          rw [ihrow i]; exact hj
        rw [hrs.2.2.2.2.2 j hjM]
        have hsyn : getSyn (iterFold (fun acc i => phase2Row r p acc i) i net) i j
            = getSyn net i j := ihhi i j (by omega)
        have hsf : ∀ k, spikedFlag (iterFold (fun acc i => phase2Row r p acc i) i net) k
            = spikedFlag net k := fun k => neuronCore_spiked (ihc k)
        simp only [phase2Expected]
        rw [hsyn, hsf, hsf]
      · have hiK' : i < K := by omega
        rw [hrs.2.2.2.2.1 i j (by rintro ⟨e, _⟩; exact hiK e)]
        exact ihdone i hiK' j hj

theorem phase2_spec (r p : Bool) (net : SpikingNet) :
    (∀ k, neuronCore (getNeuron (phase2 r p net) k) = neuronCore (getNeuron net k)) ∧
    (phase2 r p net).connections.length = net.connections.length ∧
    (∀ i', (getRow (phase2 r p net) i').length = (getRow net i').length) ∧
    (phase2 r p net).neurons.length = net.neurons.length ∧
    (∀ i j, net.neurons.length ≤ i → getSyn (phase2 r p net) i j = getSyn net i j) ∧
    (∀ i j, (getRow net i).length ≤ j → getSyn (phase2 r p net) i j = getSyn net i j) ∧
    (∀ i, i < net.neurons.length → ∀ j, j < (getRow net i).length →
        getSyn (phase2 r p net) i j = phase2Expected r p net i j) :=
  phase2NetAux r p net net.neurons.length

/-! Frame of the causal-tracing phase: it only raises `highlighted` flags. -/

/-- Two net states that agree on everything phase 4 cannot change: all
neurons, the tick, the connection shape and every synapse field other than
`highlighted`. -/
def NetCoreEq (a b : SpikingNet) : Prop :=
  a.neurons = b.neurons ∧ a.global_tick = b.global_tick ∧
  a.connections.length = b.connections.length ∧
  (∀ i, (getRow a i).length = (getRow b i).length) ∧
  (∀ i j, synCore (getSyn a i j) = synCore (getSyn b i j))

theorem NetCoreEq.refl (a : SpikingNet) : NetCoreEq a a :=
  ⟨rfl, rfl, rfl, fun _ => rfl, fun _ _ => rfl⟩

theorem NetCoreEq.trans {a b c : SpikingNet} (h1 : NetCoreEq a b) (h2 : NetCoreEq b c) :
    NetCoreEq a c :=
  ⟨h1.1.trans h2.1, h1.2.1.trans h2.2.1, h1.2.2.1.trans h2.2.2.1,
    fun i => (h1.2.2.2.1 i).trans (h2.2.2.2.1 i),
    fun i j => (h1.2.2.2.2 i j).trans (h2.2.2.2.2 i j)⟩

theorem getSyn_modifySyn_oor (net : SpikingNet) (i j : Nat)
    (f : DigitalSynapse → DigitalSynapse) (h : (getRow net i).length ≤ j) :
    getSyn (modifySyn net i j f) i j = getSyn net i j := by
  unfold getSyn getRow
  rw [modifySyn_connections]
  by_cases hi : i < net.connections.length
  · rw [nthD_modifyIdx_self net.connections i _ [] hi]
    rw [modifyIdx_ge _ j f (by exact h)]
  · rw [modifyIdx_ge net.connections i _ (not_lt.mp hi)]

theorem highlightWrite_core (net : SpikingNet) (i j : Nat) :
    NetCoreEq (modifySyn net i j (fun s => { s with highlighted := true })) net := by
  refine ⟨rfl, rfl, modifySyn_connections_length net i j _,
    getRow_modifySyn_len net i j _, fun a b => ?_⟩
  by_cases hab : i = a ∧ j = b
  · obtain ⟨rfl, rfl⟩ := hab
    by_cases hr : j < (getRow net i).length
    · rw [getSyn_modifySyn_self net i j _ hr]
      rfl
    · rw [getSyn_modifySyn_oor net i j _ (not_lt.mp hr)]
  · rw [getSyn_modifySyn_ne net i j a b _ hab]

theorem traceContribs_core (k : SpikingNet → Nat → SpikingNet)
    (hk : ∀ m idx, NetCoreEq (k m idx) m) (depth : Nat) :
    ∀ (net : SpikingNet) (cs : List Contribution),
      NetCoreEq (traceContribs k depth net cs) net := by
  intro net cs
  induction cs generalizing net with
  | nil => exact NetCoreEq.refl net
  | cons c rest ih =>
    simp only [traceContribs]
    refine NetCoreEq.trans (ih _) ?_
    split
    · exact NetCoreEq.trans (hk _ _) (highlightWrite_core net c.from_row c.syn_idx)
    · exact highlightWrite_core net c.from_row c.syn_idx

theorem traceCausalChain_core (fuel : Nat) :
    ∀ (net : SpikingNet) (n_idx depth : Nat),
      NetCoreEq (traceCausalChain fuel net n_idx depth) net := by
  induction fuel with
  | zero => exact fun net _ _ => NetCoreEq.refl net
  | succ fuel ih =>
    intro net n_idx depth
    simp only [traceCausalChain]
    split
    · exact NetCoreEq.refl net
    · exact traceContribs_core _ (fun m idx => ih m idx (depth + 1)) depth net _

/-! Characterization of the whole `step` in terms of the pre-step state. -/

theorem step_core (net : SpikingNet) (inp : List Int) (r p : Bool) :
    NetCoreEq (step net inp r p) (phase2 r p (afterIntegration net inp)) := by
  simp only [step]
  have base : ∀ X : SpikingNet,
      NetCoreEq X (phase2 r p (afterIntegration net inp)) →
      NetCoreEq (if (getNeuron X 5).spiked_this_step then traceCausalChain (MAX_HIST + 1) X 5 0
        else X) (phase2 r p (afterIntegration net inp)) := by
    intro X hX
    split
    · exact NetCoreEq.trans (traceCausalChain_core _ X 5 0) hX
    · exact hX
  apply base
  split
  · exact NetCoreEq.trans (traceCausalChain_core _ _ 4 0)
      (NetCoreEq.refl _)
  · exact NetCoreEq.refl _

theorem spikedFlag_afterIntegration (net : SpikingNet) (inp : List Int) (k : Nat)
    (h : k < net.neurons.length) :
    spikedFlag (afterIntegration net inp) k = firedThisTick net inp k := by
  unfold spikedFlag firedThisTick
  rw [getNeuron_afterIntegration net inp k h]

theorem step_neuronCore (net : SpikingNet) (inp : List Int) (r p : Bool) (k : Nat) :
    neuronCore (getNeuron (step net inp r p) k)
      = neuronCore (getNeuron (afterIntegration net inp) k) := by
  have h1 : getNeuron (step net inp r p) k
      = getNeuron (phase2 r p (afterIntegration net inp)) k := by
    unfold getNeuron
    rw [(step_core net inp r p).1]
  rw [h1]
  exact (phase2_spec r p (afterIntegration net inp)).1 k

theorem step_shape (net : SpikingNet) (inp : List Int) (r p : Bool) :
    (step net inp r p).neurons.length = net.neurons.length ∧
    (step net inp r p).connections.length = net.connections.length ∧
    (∀ i, (getRow (step net inp r p) i).length = (getRow net i).length) := by
  have hc := step_core net inp r p
  have hp := phase2_spec r p (afterIntegration net inp)
  have ha := afterIntegration_shape net inp
  refine ⟨?_, ?_, fun i => ?_⟩
  · rw [hc.1, hp.2.2.2.1, ha.1]
  · rw [hc.2.2.1, hp.2.1, ha.2.1]
  · rw [hc.2.2.2.1 i, hp.2.2.1 i, ha.2.2 i]

theorem step_syn_valid (net : SpikingNet) (inp : List Int) (r p : Bool) (i j : Nat)
    (hi : i < net.neurons.length) (hj : j < (getRow net i).length) :
    synCore (getSyn (step net inp r p) i j) =
      synCore (if isFixedConn i (getSyn net i j).target_neuron_idx then getSyn net i j
        else updateSynapsePlasticity (spikedFlag (afterIntegration net inp) i)
          (spikedFlag (afterIntegration net inp) ((getSyn net i j).target_neuron_idx))
          r p (clearHighlight (getSyn net i j))) := by
  have hc := (step_core net inp r p).2.2.2.2 i j
  have ha := afterIntegration_shape net inp
  have hp := (phase2_spec r p (afterIntegration net inp)).2.2.2.2.2.2 i
    (by rw [ha.1]; exact hi) j (by rw [ha.2.2 i]; exact hj)
  rw [hc, hp]
  simp only [phase2Expected, getSyn_afterIntegration]
  rw [show (clearHighlight (getSyn net i j)).target_neuron_idx
    = (getSyn net i j).target_neuron_idx from rfl]
  split
  · exact synCore_clearHighlight _
  · rfl

theorem step_syn_invalid (net : SpikingNet) (inp : List Int) (r p : Bool) (i j : Nat)
    (h : net.neurons.length ≤ i ∨ (getRow net i).length ≤ j) :
    synCore (getSyn (step net inp r p) i j) = synCore (getSyn net i j) := by
  have hc := (step_core net inp r p).2.2.2.2 i j
  have ha := afterIntegration_shape net inp
  rw [hc]
  rcases h with h | h
  · rw [(phase2_spec r p (afterIntegration net inp)).2.2.2.2.1 i j (by rw [ha.1]; exact h),
      getSyn_afterIntegration]
    exact synCore_clearHighlight _
  · rw [(phase2_spec r p (afterIntegration net inp)).2.2.2.2.2.1 i j (by rw [ha.2.2 i]; exact h),
      getSyn_afterIntegration]
    exact synCore_clearHighlight _

/-! Behaviour of the learning block under determinate conditions. -/

theorem decaySpikeTraces_learnFields (s : DigitalSynapse) :
    (decaySpikeTraces s).confidence = s.confidence ∧
    (decaySpikeTraces s).active = s.active ∧
    (decaySpikeTraces s).eligible_for_LTP = s.eligible_for_LTP ∧
    (decaySpikeTraces s).eligible_for_LTD = s.eligible_for_LTD ∧
    (decaySpikeTraces s).eligibility_ltp_timer = s.eligibility_ltp_timer ∧
    (decaySpikeTraces s).eligibility_ltd_timer = s.eligibility_ltd_timer ∧
    (decaySpikeTraces s).confidence_leak_timer = s.confidence_leak_timer := by
  simp only [decaySpikeTraces]
  split_ifs <;> simp

theorem decayEligibilityTraces_keepFlags (s : DigitalSynapse)
    (h1 : s.eligible_for_LTP = true → 2 ≤ s.eligibility_ltp_timer)
    (h2 : s.eligible_for_LTD = true → 2 ≤ s.eligibility_ltd_timer) :
    (decayEligibilityTraces s).confidence = s.confidence ∧
    (decayEligibilityTraces s).active = s.active ∧
    (decayEligibilityTraces s).eligible_for_LTP = s.eligible_for_LTP ∧
    (decayEligibilityTraces s).eligible_for_LTD = s.eligible_for_LTD ∧
    (decayEligibilityTraces s).confidence_leak_timer = s.confidence_leak_timer := by
  simp only [decayEligibilityTraces]
  rcases hp : s.eligible_for_LTP with _ | _ <;> rcases hd : s.eligible_for_LTD with _ | _ <;>
    split_ifs <;> simp_all <;> omega

theorem createTraces_noSpike (s : DigitalSynapse) : createTraces false false s = s := rfl

theorem applyReinforcement_reward_both (p : Bool) (s : DigitalSynapse)
    (hLTP : s.eligible_for_LTP = true) (hLTD : s.eligible_for_LTD = true)
    (hc0 : 0 ≤ s.confidence) (hcm : s.confidence < CONFIDENCE_MAX) :
    (applyReinforcement true p s).confidence = s.confidence ∧
    (applyReinforcement true p s).eligible_for_LTP = false ∧
    (applyReinforcement true p s).eligible_for_LTD = false ∧
    (applyReinforcement true p s).confidence_leak_timer = CONFIDENCE_LEAK_PERIOD := by
  simp only [applyReinforcement]
  split_ifs <;> simp_all <;> omega

theorem applyReinforcement_penalty_ltdOnly (s : DigitalSynapse)
    (hLTP : s.eligible_for_LTP = false) (hLTD : s.eligible_for_LTD = true) :
    (applyReinforcement false true s).confidence = s.confidence ∧
    (applyReinforcement false true s).eligible_for_LTD = false ∧
    (applyReinforcement false true s).eligibility_ltd_timer = 0 ∧
    (applyReinforcement false true s).confidence_leak_timer = s.confidence_leak_timer := by
  simp only [applyReinforcement]
  split_ifs <;> simp_all

theorem applyReinforcement_penalty_ltp (s : DigitalSynapse)
    (hLTP : s.eligible_for_LTP = true) (hc : 0 < s.confidence) :
    (applyReinforcement false true s).confidence = s.confidence - 1 := by
  simp only [applyReinforcement]
  split_ifs <;> simp_all

theorem applyConfidenceLeak_noop (s : DigitalSynapse) (h : 2 ≤ s.confidence_leak_timer) :
    (applyConfidenceLeak s).confidence = s.confidence ∧
    (applyConfidenceLeak s).eligible_for_LTP = s.eligible_for_LTP ∧
    (applyConfidenceLeak s).eligible_for_LTD = s.eligible_for_LTD ∧
    (applyConfidenceLeak s).eligibility_ltd_timer = s.eligibility_ltd_timer := by
  simp only [applyConfidenceLeak]
  split_ifs <;> simp_all <;> omega

/-- When reward is gated in and a synapse is eligible for both LTP and LTD
(with live eligibility timers, a leak timer that is not about to fire, no
pre/post spike this tick, and room below `CONFIDENCE_MAX`), the reward arm
applies the LTP increment and then also the LTD decrement: the confidence
lands back where it started and both eligibilities are consumed. -/
theorem plasticity_reward_both (p : Bool) (s : DigitalSynapse)
    (hLTP : s.eligible_for_LTP = true) (hLTD : s.eligible_for_LTD = true)
    (ht1 : 2 ≤ s.eligibility_ltp_timer) (ht2 : 2 ≤ s.eligibility_ltd_timer)
    (hlk : 2 ≤ s.confidence_leak_timer)
    (hc0 : 0 ≤ s.confidence) (hcm : s.confidence < CONFIDENCE_MAX) :
    (updateSynapsePlasticity false false true p s).confidence = s.confidence ∧
    (updateSynapsePlasticity false false true p s).eligible_for_LTP = false ∧
    (updateSynapsePlasticity false false true p s).eligible_for_LTD = false := by
  simp only [updateSynapsePlasticity, createTraces_noSpike]
  have d1 := decaySpikeTraces_learnFields s
  have d2 := decayEligibilityTraces_keepFlags (decaySpikeTraces s)
    (by rw [d1.2.2.1, d1.2.2.2.2.1]; exact fun h => ht1)
    (by rw [d1.2.2.2.1, d1.2.2.2.2.2.1]; exact fun h => ht2)
  have d3 := applyReinforcement_reward_both p (decayEligibilityTraces (decaySpikeTraces s))
    (by rw [d2.2.2.1, d1.2.2.1]; exact hLTP)
    (by rw [d2.2.2.2.1, d1.2.2.2.1]; exact hLTD)
    (by rw [d2.1, d1.1]; exact hc0)
    (by rw [d2.1, d1.1]; exact hcm)
  have d4 := applyConfidenceLeak_noop
    (applyReinforcement true p (decayEligibilityTraces (decaySpikeTraces s)))
    (by rw [d3.2.2.2]; simp [CONFIDENCE_LEAK_PERIOD])
  refine ⟨?_, ?_, ?_⟩
  · rw [d4.1, d3.1, d2.1, d1.1]
  · rw [d4.2.1, d3.2.1]
  · rw [d4.2.2.1, d3.2.2.1]

/-- When penalty is gated in (reward off, no pre/post spike this tick,
timers live): a synapse eligible only for LTD keeps its confidence but its
LTD eligibility and timer are cleared; a synapse eligible for LTP with
positive confidence is decremented by exactly one. -/
theorem plasticity_penalty_cases (s : DigitalSynapse)
    (ht1 : s.eligible_for_LTP = true → 2 ≤ s.eligibility_ltp_timer)
    (ht2 : s.eligible_for_LTD = true → 2 ≤ s.eligibility_ltd_timer)
    (hlk : 2 ≤ s.confidence_leak_timer) :
    (s.eligible_for_LTP = false → s.eligible_for_LTD = true →
      (updateSynapsePlasticity false false false true s).confidence = s.confidence ∧
      (updateSynapsePlasticity false false false true s).eligible_for_LTD = false ∧
      (updateSynapsePlasticity false false false true s).eligibility_ltd_timer = 0) ∧
    (s.eligible_for_LTP = true → 0 < s.confidence →
      (updateSynapsePlasticity false false false true s).confidence = s.confidence - 1) := by
  simp only [updateSynapsePlasticity, createTraces_noSpike]
  have d1 := decaySpikeTraces_learnFields s
  have d2 := decayEligibilityTraces_keepFlags (decaySpikeTraces s)
    (by rw [d1.2.2.1, d1.2.2.2.2.1]; exact ht1)
    (by rw [d1.2.2.2.1, d1.2.2.2.2.2.1]; exact ht2)
  constructor
  · intro hLTP hLTD
    have d3 := applyReinforcement_penalty_ltdOnly (decayEligibilityTraces (decaySpikeTraces s))
      (by rw [d2.2.2.1, d1.2.2.1]; exact hLTP)
      (by rw [d2.2.2.2.1, d1.2.2.2.1]; exact hLTD)
    have d4 := applyConfidenceLeak_noop
      (applyReinforcement false true (decayEligibilityTraces (decaySpikeTraces s)))
      (by rw [d3.2.2.2, d2.2.2.2.2, d1.2.2.2.2.2.2]; exact hlk)
    refine ⟨?_, ?_, ?_⟩
    · rw [d4.1, d3.1, d2.1, d1.1]
    · rw [d4.2.2.1, d3.2.1]
    · rw [d4.2.2.2, d3.2.2.1]
  · intro hLTP hc
    have d3 := applyReinforcement_penalty_ltp (decayEligibilityTraces (decaySpikeTraces s))
      (by rw [d2.2.2.1, d1.2.2.1]; exact hLTP)
      (by rw [d2.1, d1.1]; exact hc)
    have hleak2 : 2 ≤ (applyReinforcement false true
        (decayEligibilityTraces (decaySpikeTraces s))).confidence_leak_timer := by
      simp only [applyReinforcement]
      split_ifs <;> simp_all [CONFIDENCE_LEAK_PERIOD] <;> omega
    have d4 := applyConfidenceLeak_noop _ hleak2
    rw [d4.1, d3, d2.1, d1.1]

/-! The per-net synapse invariant and its preservation by `step`. -/

/-- Invariant of the claim: every synapse of the net has its confidence in
range and its `active` flag consistent. -/
def netSynInv (net : SpikingNet) : Prop :=
  ∀ row ∈ net.connections, ∀ s ∈ row, synInv s

instance (net : SpikingNet) : Decidable (netSynInv net) := by
  unfold netSynInv; infer_instance

theorem nthD_mem {α : Type} (l : List α) (k : Nat) (d : α) (h : k < l.length) :
    nthD l k d ∈ l := by
  induction l generalizing k with
  | nil => simp at h
  | cons a as ih =>
    cases k with
    | zero => exact List.mem_cons_self a as
    | succ m => exact List.mem_cons_of_mem a (ih m (by simpa using h))

theorem mem_imp_nthD {α : Type} {l : List α} {a : α} (h : a ∈ l) (d : α) :
    ∃ k, k < l.length ∧ nthD l k d = a := by
  induction l with
  | nil => simp at h
  | cons b bs ih =>
    rcases List.mem_cons.mp h with rfl | hmem
    · exact ⟨0, by simp, rfl⟩
    · obtain ⟨k, hk, he⟩ := ih hmem
      exact ⟨k + 1, by simpa using hk, he⟩

theorem netSynInv_iff (net : SpikingNet) :
    netSynInv net ↔ ∀ i j, synInv (getSyn net i j) := by
  constructor
  · intro h i j
    by_cases hi : i < net.connections.length
    · by_cases hj : j < (getRow net i).length
      · exact h _ (nthD_mem net.connections i [] hi) _ (nthD_mem _ j defaultSynapse hj)
      · unfold getSyn
        rw [nthD_ge _ j _ (not_lt.mp hj)]
        exact synInv_defaultSynapse
    · unfold getSyn getRow
      rw [nthD_ge net.connections i [] (not_lt.mp hi), nthD_ge [] j defaultSynapse (by simp)]
      exact synInv_defaultSynapse
  · intro h row hrow s hs
    obtain ⟨i, hi, hrowe⟩ := mem_imp_nthD hrow []
    obtain ⟨j, hj, hse⟩ := mem_imp_nthD hs defaultSynapse
    have he : getSyn net i j = s := by
      unfold getSyn getRow
      rw [hrowe, hse]
    rw [← he]
    exact h i j

theorem synInv_congr {a b : DigitalSynapse} (h : synCore a = synCore b) :
    synInv b → synInv a := by
  unfold synInv
  rw [synCore_confidence h, synCore_active h]
  exact id

theorem step_preserves_netSynInv (net : SpikingNet) (inp : List Int) (r p : Bool)
    (h : netSynInv net) : netSynInv (step net inp r p) := by
  rw [netSynInv_iff] at h ⊢
  intro i j
  by_cases hi : i < net.neurons.length
  · by_cases hj : j < (getRow net i).length
    · refine synInv_congr (step_syn_valid net inp r p i j hi hj) ?_
      split
      · exact h i j
      · exact updateSynapsePlasticity_synInv _ _ r p _ (h i j)
    · exact synInv_congr (step_syn_invalid net inp r p i j (Or.inr (not_lt.mp hj))) (h i j)
  · exact synInv_congr (step_syn_invalid net inp r p i j (Or.inl (not_lt.mp hi))) (h i j)

theorem step_target (net : SpikingNet) (inp : List Int) (r p : Bool) (i j : Nat) :
    (getSyn (step net inp r p) i j).target_neuron_idx
      = (getSyn net i j).target_neuron_idx := by
  by_cases hi : i < net.neurons.length
  · by_cases hj : j < (getRow net i).length
    · rw [synCore_target (step_syn_valid net inp r p i j hi hj)]
      split
      · rfl
      · rw [updateSynapsePlasticity_target]
        rfl
    · exact synCore_target (step_syn_invalid net inp r p i j (Or.inr (not_lt.mp hj)))
  · exact synCore_target (step_syn_invalid net inp r p i j (Or.inl (not_lt.mp hi)))

theorem step_fixed_frame (net : SpikingNet) (inp : List Int) (r p : Bool) (i j : Nat)
    (hfix : isFixedConn i (getSyn net i j).target_neuron_idx) :
    (getSyn (step net inp r p) i j).confidence = (getSyn net i j).confidence ∧
    (getSyn (step net inp r p) i j).active = (getSyn net i j).active := by
  by_cases hi : i < net.neurons.length
  · by_cases hj : j < (getRow net i).length
    · have h := step_syn_valid net inp r p i j hi hj
      rw [if_pos hfix] at h
      exact ⟨synCore_confidence h, synCore_active h⟩
    · have h := step_syn_invalid net inp r p i j (Or.inr (not_lt.mp hj))
      exact ⟨synCore_confidence h, synCore_active h⟩
  · have h := step_syn_invalid net inp r p i j (Or.inl (not_lt.mp hi))
    exact ⟨synCore_confidence h, synCore_active h⟩

theorem runNet_inv_aux (tr : List (List Int × Bool × Bool)) :
    ∀ net : SpikingNet, netSynInv net →
      netSynInv (runNet net tr) ∧
      ∀ i j, (getSyn (runNet net tr) i j).target_neuron_idx
          = (getSyn net i j).target_neuron_idx ∧
        (isFixedConn i (getSyn net i j).target_neuron_idx →
          (getSyn (runNet net tr) i j).confidence = (getSyn net i j).confidence ∧
          (getSyn (runNet net tr) i j).active = (getSyn net i j).active) := by
  induction tr with
  | nil => exact fun net h => ⟨h, fun i j => ⟨rfl, fun _ => ⟨rfl, rfl⟩⟩⟩
  | cons t rest ih =>
    rintro net h
    obtain ⟨inp, r, p⟩ := t
    have hstep := step_preserves_netSynInv net inp r p h
    obtain ⟨h1, h2⟩ := ih (step net inp r p) hstep
    refine ⟨h1, fun i j => ?_⟩
    have htg := step_target net inp r p i j
    refine ⟨((h2 i j).1).trans htg, fun hfix => ?_⟩
    have hfix' : isFixedConn i (getSyn (step net inp r p) i j).target_neuron_idx := by
      rw [htg]; exact hfix
    obtain ⟨hc, ha⟩ := (h2 i j).2 hfix'
    obtain ⟨hc0, ha0⟩ := step_fixed_frame net inp r p i j hfix
    exact ⟨hc.trans hc0, ha.trans ha0⟩

/-! Neuron-side consequences of one `step`. -/

theorem step_history_shift (net : SpikingNet) (inp : List Int) (r p : Bool) (k : Nat)
    (h : k < net.neurons.length) :
    (getNeuron (step net inp r p) k).contrib_history
      = ((getNeuron net k).next_contributors :: (getNeuron net k).contrib_history).take MAX_HIST ∧
    (getNeuron (step net inp r p) k).spike_history
      = ((getNeuron net k).spiked_this_step :: (getNeuron net k).spike_history).take MAX_HIST := by
  have h1 := step_neuronCore net inp r p k
  have h2 := getNeuron_afterIntegration net inp k h
  constructor
  · rw [neuronCore_contribHistory h1, h2,
      (updateNeuron_keeps_hist inp (shiftHistory (getNeuron net k))).2.1]
    rfl
  · rw [neuronCore_spikeHistory h1, h2]
    have h3 : (updateNeuron inp (shiftHistory (getNeuron net k))).spike_history
        = (shiftHistory (getNeuron net k)).spike_history := by
      simp only [updateNeuron, applyLeakRule, integrateAndFire]
      split_ifs <;> simp
    rw [h3]
    rfl

theorem step_refractory_inv (net : SpikingNet) (inp : List Int) (r p : Bool) (k : Nat)
    (h : 0 ≤ (getNeuron net k).refractory_timer) :
    0 ≤ (getNeuron (step net inp r p) k).refractory_timer ∧
    (0 < (getNeuron (step net inp r p) k).refractory_timer →
      (getNeuron (step net inp r p) k).voltage = V_REST) := by
  by_cases hk : k < net.neurons.length
  · have h1 := step_neuronCore net inp r p k
    have h2 := getNeuron_afterIntegration net inp k hk
    have h3 := updateNeuron_refr_voltage inp (shiftHistory (getNeuron net k)) (by exact h)
    rw [neuronCore_refr h1, neuronCore_voltage h1, h2]
    exact h3
  · have hlen : net.neurons.length ≤ k := not_lt.mp hk
    have he : getNeuron (step net inp r p) k = defaultNeuron := by
      unfold getNeuron
      exact nthD_ge _ k _ (by rw [(step_shape net inp r p).1]; exact hlen)
    rw [he]
    exact ⟨le_refl 0, fun hcontra => absurd hcontra (by simp [defaultNeuron])⟩

theorem step_spikes_on_input (net : SpikingNet) (inp : List Int) (r p : Bool) (k : Nat)
    (hk : k < net.neurons.length) (hid : (getNeuron net k).id = k)
    (hr : (getNeuron net k).refractory_timer ≤ 0)
    (hv : 0 ≤ (getNeuron net k).voltage) (hb : 0 ≤ (getNeuron net k).input_buffer)
    (hx : 0 < inp.getD k 0) :
    (getNeuron (step net inp r p) k).spiked_this_step = true := by
  have h1 := step_neuronCore net inp r p k
  have h2 := getNeuron_afterIntegration net inp k hk
  rw [neuronCore_spiked h1, h2]
  refine updateNeuron_spikes inp (shiftHistory (getNeuron net k)) (by exact hr) (by exact hv)
    (by exact hb) ?_
  rw [show (shiftHistory (getNeuron net k)).id = (getNeuron net k).id from rfl, hid]
  exact hx

/-! Helper lemmas about the world. -/

theorem foodOutcome_excl (c pd : Int) :
    ¬((foodOutcome c pd).reward = true ∧ (foodOutcome c pd).penalty = true) := by
  unfold foodOutcome
  split_ifs <;> simp

theorem dangerOutcome_excl (c pd : Int) :
    ¬((dangerOutcome c pd).reward = true ∧ (dangerOutcome c pd).penalty = true) := by
  unfold dangerOutcome
  split_ifs <;> simp

/-! Concrete probe configurations used by witnesses and counterexamples.
All are reachable: they are built with the constructors and driven only
through `step`. -/

/-- A net of 8 neurons with one plastic synapse 6 → 7 at confidence 1. -/
def probeNetConf1 : SpikingNet := addSynapse (SpikingNet.init 8) 6 7 1

/-- A net of 8 neurons with one plastic synapse 6 → 7 at confidence 5. -/
def probeNetConf5 : SpikingNet := addSynapse (SpikingNet.init 8) 6 7 5

/-- External pulse into neuron 7 only. -/
def pulse7 : List Int := [0, 0, 0, 0, 0, 0, 0, 1]

/-- External pulse into neuron 6 only. -/
def pulse6 : List Int := [0, 0, 0, 0, 0, 0, 1, 0]

/-- External pulse into neurons 6 and 7. -/
def pulse67 : List Int := [0, 0, 0, 0, 0, 0, 1, 1]

/-- Four unrewarded ticks that leave synapse 6→0 of `probeNetConf1`
simultaneously eligible for LTP and LTD: post spike (tick 1), pre spike
(tick 2, arming LTD eligibility), idle tick, post spike again (tick 4,
arming LTP eligibility). -/
def c2Stage : SpikingNet :=
  step (step (step (step probeNetConf1 pulse7 false false) pulse6 false false)
    [] false false) pulse7 false false

/-- Two unrewarded ticks that leave synapse 6→7 of `probeNetConf1` eligible
for LTD only (post spike then pre spike). -/
def c6Stage : SpikingNet :=
  step (step probeNetConf1 pulse7 false false) pulse6 false false

/-- One tick of `probeNetConf5` in which both 6 and 7 spike, so 7 ends the
tick refractory while the conducting synapse delivers into its buffer. -/
def bothSpikeTick : SpikingNet := step probeNetConf5 pulse67 false false

/-- The probe net at the tick boundary 149 → 150 (150 ≡ 0 mod the
PRUNING_PERIOD = 150 the specification prescribes). -/
def tick150Net : SpikingNet := { probeNetConf5 with global_tick := 149 }

/-! Claim theorems. -/

/-- C1: after every tick of `SpikingNet::step` (here: after any run of
`step` over any input trace), every synapse satisfies
0 ≤ confidence ≤ CONFIDENCE_MAX with active ⇔ (confidence ≥ CONFIDENCE_THR),
and the confidence and active flag of every fixed (non-plastic) synapse
never change from their initial values. -/
theorem runNet_synapse_invariant_and_fixed_frozen (net : SpikingNet)
    (tr : List (List Int × Bool × Bool)) (h : netSynInv net) :
    netSynInv (runNet net tr) ∧
    ∀ i j, isFixedConn i (getSyn net i j).target_neuron_idx →
      (getSyn (runNet net tr) i j).confidence = (getSyn net i j).confidence ∧
      (getSyn (runNet net tr) i j).active = (getSyn net i j).active := by
  obtain ⟨h1, h2⟩ := runNet_inv_aux tr net h
  exact ⟨h1, fun i j hfix => (h2 i j).2 hfix⟩

/-- Witness for C1 on a concrete reachable net (one fixed synapse 0→6, one
plastic synapse 6→7) over a three-tick trace with reward and penalty. -/
theorem runNet_synapse_invariant_and_fixed_frozen_witness :
    netSynInv (addSynapse (addSynapse (SpikingNet.init 8) 0 6 5) 6 7 1) ∧
    (netSynInv (runNet (addSynapse (addSynapse (SpikingNet.init 8) 0 6 5) 6 7 1)
        [(pulse67, true, false), ([], false, true), (pulse6, true, false)]) ∧
      ∀ i j, isFixedConn i
          (getSyn (addSynapse (addSynapse (SpikingNet.init 8) 0 6 5) 6 7 1) i j).target_neuron_idx →
        (getSyn (runNet (addSynapse (addSynapse (SpikingNet.init 8) 0 6 5) 6 7 1)
            [(pulse67, true, false), ([], false, true), (pulse6, true, false)]) i j).confidence
          = (getSyn (addSynapse (addSynapse (SpikingNet.init 8) 0 6 5) 6 7 1) i j).confidence ∧
        (getSyn (runNet (addSynapse (addSynapse (SpikingNet.init 8) 0 6 5) 6 7 1)
            [(pulse67, true, false), ([], false, true), (pulse6, true, false)]) i j).active
          = (getSyn (addSynapse (addSynapse (SpikingNet.init 8) 0 6 5) 6 7 1) i j).active) :=
  ⟨by decide, runNet_synapse_invariant_and_fixed_frozen _ _ (by decide)⟩

/-- C2 counterexample: at `c2Stage` the synapse 6→7 is simultaneously
eligible for LTP and LTD with confidence 1 < CONFIDENCE_MAX. The claim
("only the LTP increment is applied — never both") predicts confidence 2
with the LTD eligibility still latched after a rewarded tick; the code
applies the LTP increment AND then the LTD decrement in the same tick:
confidence returns to 1 and both eligibilities are consumed. -/
theorem step_reward_arm_double_update_cex :
    (getSyn c2Stage 6 0).eligible_for_LTP = true ∧
    (getSyn c2Stage 6 0).eligible_for_LTD = true ∧
    (getSyn c2Stage 6 0).confidence = 1 ∧
    (getSyn (step c2Stage [] true false) 6 0).confidence = 1 ∧
    ¬((getSyn (step c2Stage [] true false) 6 0).confidence = 2) ∧
    (getSyn (step c2Stage [] true false) 6 0).eligible_for_LTP = false ∧
    (getSyn (step c2Stage [] true false) 6 0).eligible_for_LTD = false := by decide

/-- C2 (amended): inside one tick's reward arm LTP is checked first and each
eligibility is consumed at most once, but the two guards are independent: a
synapse eligible for both (with live timers, confidence below the maximum
and no pre/post spike this tick) receives the LTP increment AND the LTD
decrement in the same tick, leaving its confidence unchanged and both
eligibilities cleared. -/
theorem step_reward_arm_applies_both (net : SpikingNet) (inp : List Int) (p : Bool)
    (i j : Nat) (hi : i < net.neurons.length) (hj : j < (getRow net i).length)
    (hfix : ¬isFixedConn i (getSyn net i j).target_neuron_idx)
    (htl : (getSyn net i j).target_neuron_idx < net.neurons.length)
    (hpre : firedThisTick net inp i = false)
    (hpost : firedThisTick net inp ((getSyn net i j).target_neuron_idx) = false)
    (hLTP : (getSyn net i j).eligible_for_LTP = true)
    (hLTD : (getSyn net i j).eligible_for_LTD = true)
    (ht1 : 2 ≤ (getSyn net i j).eligibility_ltp_timer)
    (ht2 : 2 ≤ (getSyn net i j).eligibility_ltd_timer)
    (hlk : 2 ≤ (getSyn net i j).confidence_leak_timer)
    (hc0 : 0 ≤ (getSyn net i j).confidence)
    (hcm : (getSyn net i j).confidence < CONFIDENCE_MAX) :
    (getSyn (step net inp true p) i j).confidence = (getSyn net i j).confidence ∧
    (getSyn (step net inp true p) i j).eligible_for_LTP = false ∧
    (getSyn (step net inp true p) i j).eligible_for_LTD = false := by
  have h := step_syn_valid net inp true p i j hi hj
  rw [if_neg hfix, spikedFlag_afterIntegration net inp i hi,
    spikedFlag_afterIntegration net inp _ htl, hpre, hpost] at h
  have hb := plasticity_reward_both p (clearHighlight (getSyn net i j))
    (by exact hLTP) (by exact hLTD) (by exact ht1) (by exact ht2) (by exact hlk)
    (by exact hc0) (by exact hcm)
  exact ⟨(synCore_confidence h).trans hb.1, (synCore_eligLTP h).trans hb.2.1,
    (synCore_eligLTD h).trans hb.2.2⟩

/-- Witness for the amended C2 at the concrete reachable state `c2Stage`. -/
theorem step_reward_arm_applies_both_witness :
    ((6 : Nat) < c2Stage.neurons.length ∧ (0 : Nat) < (getRow c2Stage 6).length ∧
      ¬isFixedConn 6 (getSyn c2Stage 6 0).target_neuron_idx ∧
      (getSyn c2Stage 6 0).eligible_for_LTP = true ∧
      (getSyn c2Stage 6 0).eligible_for_LTD = true ∧
      (getSyn c2Stage 6 0).confidence < CONFIDENCE_MAX) ∧
    ((getSyn (step c2Stage [] true false) 6 0).confidence = (getSyn c2Stage 6 0).confidence ∧
      (getSyn (step c2Stage [] true false) 6 0).eligible_for_LTP = false ∧
      (getSyn (step c2Stage [] true false) 6 0).eligible_for_LTD = false) :=
  ⟨by decide, step_reward_arm_applies_both c2Stage [] false 6 0 (by decide) (by decide)
    (by decide) (by decide) (by decide) (by decide) (by decide) (by decide) (by decide)
    (by decide) (by decide) (by decide) (by decide)⟩

/-- C3: contrary to the claim (and to the repository README), the tick
engine contains no pruning phase at all: `step` never replaces any
synapse's target, on any state. In particular at the tick boundary
149 → 150 (150 ≡ 0 mod PRUNING_PERIOD = 150) the probe synapse keeps both
its target and its confidence — nothing is rewired or reset to 1. -/
theorem step_never_rewires :
    (∀ (net : SpikingNet) (inp : List Int) (r p : Bool) (i j : Nat),
      (getSyn (step net inp r p) i j).target_neuron_idx
        = (getSyn net i j).target_neuron_idx) ∧
    ((step tick150Net [] false false).global_tick = 150 ∧
      (getSyn (step tick150Net [] false false) 6 0).target_neuron_idx = 7 ∧
      (getSyn (step tick150Net [] false false) 6 0).confidence = 5 ∧
      ¬((getSyn (step tick150Net [] false false) 6 0).confidence = 1)) :=
  ⟨step_target, by decide⟩

/-- C4 counterexample: in the tick `bothSpikeTick` neuron 6 spikes and
delivers through the active synapse into neuron 7, yet at the end of that
tick `spike_history[0]` of neuron 6 is still `false` and
`contrib_history[0]` of neuron 7 is still empty — the delivery sits in
`next_contributors` and only reaches `contrib_history[0]` after the NEXT
tick's start-of-tick shift. -/
theorem step_history_lag_cex :
    (getNeuron bothSpikeTick 6).spiked_this_step = true ∧
    (getNeuron bothSpikeTick 6).spike_history.getD 0 false = false ∧
    (getNeuron bothSpikeTick 7).next_contributors = [⟨6, 0⟩] ∧
    (getNeuron bothSpikeTick 7).contrib_history.getD 0 [] = [] ∧
    (getNeuron (step bothSpikeTick [] false false) 7).contrib_history.getD 0 []
      = [⟨6, 0⟩] ∧
    (getNeuron (step bothSpikeTick [] false false) 6).spike_history.getD 0 false
      = true := by decide

/-- C4 (amended): the history shift happens at the START of each tick, so
at the end of tick T slot 0 holds the PREVIOUS tick's events: after one
`step`, `contrib_history` equals the pre-step `next_contributors` (the
deliveries of tick T−1) consed onto the old history, truncated to MAX_HIST,
and `spike_history` likewise receives the pre-step `spiked_this_step`; tick
T's own deliveries end the tick in `next_contributors` and its spike in
`spiked_this_step`. -/
theorem step_history_reflects_previous_tick (net : SpikingNet) (inp : List Int)
    (r p : Bool) (k : Nat) (h : k < net.neurons.length) :
    (getNeuron (step net inp r p) k).contrib_history
      = ((getNeuron net k).next_contributors :: (getNeuron net k).contrib_history).take MAX_HIST ∧
    (getNeuron (step net inp r p) k).spike_history
      = ((getNeuron net k).spiked_this_step :: (getNeuron net k).spike_history).take MAX_HIST :=
  step_history_shift net inp r p k h

/-- Witness for the amended C4 at neuron 7 of `probeNetConf5`. -/
theorem step_history_reflects_previous_tick_witness :
    (7 : Nat) < probeNetConf5.neurons.length ∧
    ((getNeuron (step probeNetConf5 pulse67 false false) 7).contrib_history
      = ((getNeuron probeNetConf5 7).next_contributors
          :: (getNeuron probeNetConf5 7).contrib_history).take MAX_HIST ∧
    (getNeuron (step probeNetConf5 pulse67 false false) 7).spike_history
      = ((getNeuron probeNetConf5 7).spiked_this_step
          :: (getNeuron probeNetConf5 7).spike_history).take MAX_HIST) :=
  ⟨by decide, step_history_reflects_previous_tick probeNetConf5 pulse67 false false 7 (by decide)⟩

/-- C5 counterexample: in `bothSpikeTick` both 6 and 7 spike; 7 ends the
tick refractory (timer 1 > 0) with voltage at rest BUT with
`input_buffer = 1`: the spike delivered by 6 during the same tick lands in
the refractory neuron's buffer, contradicting `input_buffer = 0`. -/
theorem step_refractory_buffer_cex :
    (getNeuron bothSpikeTick 7).refractory_timer = 1 ∧
    (getNeuron bothSpikeTick 7).voltage = V_REST ∧
    (getNeuron bothSpikeTick 7).input_buffer = 1 ∧
    ¬((getNeuron bothSpikeTick 7).input_buffer = 0) := by decide

/-- C5 (amended): after every tick every neuron has
`refractory_timer ≥ 0`, and a positive refractory timer forces
`voltage = V_REST`; the `input_buffer` clause of the claim is dropped,
because same-tick deliveries may land in a refractory neuron's buffer (they
are discarded at the start of its next tick). -/
theorem step_refractory_nonneg_voltage_rest (net : SpikingNet) (inp : List Int)
    (r p : Bool) (k : Nat) (h : 0 ≤ (getNeuron net k).refractory_timer) :
    0 ≤ (getNeuron (step net inp r p) k).refractory_timer ∧
    (0 < (getNeuron (step net inp r p) k).refractory_timer →
      (getNeuron (step net inp r p) k).voltage = V_REST) :=
  step_refractory_inv net inp r p k h

/-- Witness for the amended C5 at the refractory neuron 7 of
`bothSpikeTick`. -/
theorem step_refractory_nonneg_voltage_rest_witness :
    (0 : Int) ≤ (getNeuron bothSpikeTick 7).refractory_timer ∧
    (0 ≤ (getNeuron (step bothSpikeTick [] false false) 7).refractory_timer ∧
      (0 < (getNeuron (step bothSpikeTick [] false false) 7).refractory_timer →
        (getNeuron (step bothSpikeTick [] false false) 7).voltage = V_REST)) :=
  ⟨by decide, step_refractory_nonneg_voltage_rest bothSpikeTick [] false false 7 (by decide)⟩

/-- C6: when penalty is active and reward is not (synapse plastic and valid,
no pre/post spike this tick, live timers): a synapse eligible only for LTD
keeps its confidence but has its LTD eligibility flag and timer cleared,
while a synapse eligible for LTP with positive confidence has its
confidence decremented by exactly one. -/
theorem step_penalty_arm_cases (net : SpikingNet) (inp : List Int) (i j : Nat)
    (hi : i < net.neurons.length) (hj : j < (getRow net i).length)
    (hfix : ¬isFixedConn i (getSyn net i j).target_neuron_idx)
    (htl : (getSyn net i j).target_neuron_idx < net.neurons.length)
    (hpre : firedThisTick net inp i = false)
    (hpost : firedThisTick net inp ((getSyn net i j).target_neuron_idx) = false)
    (ht1 : (getSyn net i j).eligible_for_LTP = true → 2 ≤ (getSyn net i j).eligibility_ltp_timer)
    (ht2 : (getSyn net i j).eligible_for_LTD = true → 2 ≤ (getSyn net i j).eligibility_ltd_timer)
    (hlk : 2 ≤ (getSyn net i j).confidence_leak_timer) :
    ((getSyn net i j).eligible_for_LTP = false → (getSyn net i j).eligible_for_LTD = true →
      (getSyn (step net inp false true) i j).confidence = (getSyn net i j).confidence ∧
      (getSyn (step net inp false true) i j).eligible_for_LTD = false ∧
      (getSyn (step net inp false true) i j).eligibility_ltd_timer = 0) ∧
    ((getSyn net i j).eligible_for_LTP = true → 0 < (getSyn net i j).confidence →
      (getSyn (step net inp false true) i j).confidence = (getSyn net i j).confidence - 1) := by
  have h := step_syn_valid net inp false true i j hi hj
  rw [if_neg hfix, spikedFlag_afterIntegration net inp i hi,
    spikedFlag_afterIntegration net inp _ htl, hpre, hpost] at h
  have hb := plasticity_penalty_cases (clearHighlight (getSyn net i j))
    (by exact ht1) (by exact ht2) (by exact hlk)
  constructor
  · intro hLTP hLTD
    obtain ⟨hc, hd, he⟩ := hb.1 (by exact hLTP) (by exact hLTD)
    exact ⟨(synCore_confidence h).trans hc, (synCore_eligLTD h).trans hd,
      (synCore_eligLTDTimer h).trans he⟩
  · intro hLTP hc
    exact (synCore_confidence h).trans (hb.2 (by exact hLTP) (by exact hc))

/-- Witness for C6 at the concrete reachable state `c6Stage` (the synapse
is LTD-eligible only; the LTD eligibility clears with no confidence
change). -/
theorem step_penalty_arm_cases_witness :
    ((getSyn c6Stage 6 0).eligible_for_LTP = false ∧
      (getSyn c6Stage 6 0).eligible_for_LTD = true ∧
      2 ≤ (getSyn c6Stage 6 0).confidence_leak_timer) ∧
    (((getSyn c6Stage 6 0).eligible_for_LTP = false →
        (getSyn c6Stage 6 0).eligible_for_LTD = true →
      (getSyn (step c6Stage [] false true) 6 0).confidence = (getSyn c6Stage 6 0).confidence ∧
      (getSyn (step c6Stage [] false true) 6 0).eligible_for_LTD = false ∧
      (getSyn (step c6Stage [] false true) 6 0).eligibility_ltd_timer = 0) ∧
    ((getSyn c6Stage 6 0).eligible_for_LTP = true → 0 < (getSyn c6Stage 6 0).confidence →
      (getSyn (step c6Stage [] false true) 6 0).confidence
        = (getSyn c6Stage 6 0).confidence - 1)) :=
  ⟨by decide, step_penalty_arm_cases c6Stage [] 6 0 (by decide) (by decide) (by decide)
    (by decide) (by decide) (by decide) (by decide) (by decide) (by decide)⟩

/-- C9: the `V_THRESH` boost for a positive external input is applied to
every non-refractory neuron whose id is inside the input vector — not only
to the sensors 0..3 — and such a neuron spikes in that same tick (its
voltage and buffer are non-negative, so the boost alone reaches the
threshold). -/
theorem step_input_boost_any_neuron (net : SpikingNet) (inp : List Int) (r p : Bool)
    (k : Nat) (hk : k < net.neurons.length) (hid : (getNeuron net k).id = k)
    (hr : (getNeuron net k).refractory_timer ≤ 0)
    (hv : 0 ≤ (getNeuron net k).voltage) (hb : 0 ≤ (getNeuron net k).input_buffer)
    (hx : 0 < inp.getD k 0) :
    (getNeuron (step net inp r p) k).spiked_this_step = true :=
  step_spikes_on_input net inp r p k hk hid hr hv hb hx

/-- Witness for C9: the hidden neuron 6 (outside the sensor range 0..3) of
`probeNetConf5` spikes in the very tick it receives the driver-style random
pulse. -/
theorem step_input_boost_any_neuron_witness :
    ((6 : Nat) < probeNetConf5.neurons.length ∧
      (getNeuron probeNetConf5 6).id = 6 ∧
      (getNeuron probeNetConf5 6).refractory_timer ≤ 0 ∧
      0 < pulse6.getD 6 0) ∧
    (getNeuron (step probeNetConf5 pulse6 false false) 6).spiked_this_step = true :=
  ⟨by decide, step_input_boost_any_neuron probeNetConf5 pulse6 false false 6 (by decide)
    (by decide) (by decide) (by decide) (by decide) (by decide)⟩

theorem scoreAndCollide_excl (w : World) (pd : Int) :
    ¬((scoreAndCollide w pd).1.reward = true ∧ (scoreAndCollide w pd).1.penalty = true) := by
  simp only [scoreAndCollide]
  split_ifs <;> simp_all [foodOutcome, dangerOutcome] <;> split_ifs <;> simp_all

/-- C8: `World::update` never reports reward and penalty at once, for every
world state, every motor input and every random draw. -/
theorem update_never_both (w : World) (ml mr : Bool) (d : SpawnDraws) :
    ¬((World.update w ml mr d).1.reward = true ∧ (World.update w ml mr d).1.penalty = true) := by
  simp only [World.update]
  exact scoreAndCollide_excl _ _

/-- C7 counterexample: with the legal draw (choice 0 = FOOD, lifetime 3000,
position 5) `spawn_target` puts the target at cell 5, which is neither 0
nor `size − 1 = 29` — the claim's "either cell 0 or cell size−1" placement
does not describe the code, which draws uniformly from `[0, size/2 − 1]`,
strictly left of the recentred agent. -/
theorem spawn_target_support_cex :
    SpawnDrawsOK World.init ⟨0, 3000, 5⟩ ∧
    (spawn_target World.init ⟨0, 3000, 5⟩).target_type = TargetType.FOOD ∧
    (spawn_target World.init ⟨0, 3000, 5⟩).target_pos = 5 ∧
    (spawn_target World.init ⟨0, 3000, 5⟩).agent_pos = 15 ∧
    ¬((spawn_target World.init ⟨0, 3000, 5⟩).target_pos = 0 ∨
      (spawn_target World.init ⟨0, 3000, 5⟩).target_pos = World.init.size - 1) := by decide

/-- C7 (amended): for every legal draw, `spawn_target` sets the new
lifetime, resets the agent to `size / 2`, maps the uniform choice 0/1/2 to
FOOD/DANGER/NONE, and — for FOOD or DANGER — places the target at the drawn
cell, which lies in `[0, size/2 − 1]` (strictly left of the reset agent),
not at one of the two edge cells. -/
theorem spawn_target_resets_and_places_left (w : World) (d : SpawnDraws)
    (h : SpawnDrawsOK w d) :
    (spawn_target w d).agent_pos = w.size / 2 ∧
    (spawn_target w d).target_timer = d.lifetime ∧
    (d.choice = 2 → (spawn_target w d).target_type = TargetType.NONE) ∧
    (d.choice = 0 → (spawn_target w d).target_type = TargetType.FOOD ∧
      (spawn_target w d).target_pos = d.pos ∧
      0 ≤ (spawn_target w d).target_pos ∧
      (spawn_target w d).target_pos ≤ w.size / 2 - 1) ∧
    (d.choice = 1 → (spawn_target w d).target_type = TargetType.DANGER ∧
      (spawn_target w d).target_pos = d.pos ∧
      0 ≤ (spawn_target w d).target_pos ∧
      (spawn_target w d).target_pos ≤ w.size / 2 - 1) := by
  obtain ⟨h1, h2, h3, h4, h5, h6⟩ := h
  simp only [spawn_target]
  split_ifs <;> simp_all <;> omega

/-- Witness for the amended C7 at a concrete legal draw. -/
theorem spawn_target_resets_and_places_left_witness :
    SpawnDrawsOK World.init ⟨1, 4000, 14⟩ ∧
    ((spawn_target World.init ⟨1, 4000, 14⟩).agent_pos = World.init.size / 2 ∧
      (spawn_target World.init ⟨1, 4000, 14⟩).target_timer = (4000 : Int) ∧
      ((1 : Int) = 2 → (spawn_target World.init ⟨1, 4000, 14⟩).target_type = TargetType.NONE) ∧
      ((1 : Int) = 0 → (spawn_target World.init ⟨1, 4000, 14⟩).target_type = TargetType.FOOD ∧
        (spawn_target World.init ⟨1, 4000, 14⟩).target_pos = (14 : Int) ∧
        0 ≤ (spawn_target World.init ⟨1, 4000, 14⟩).target_pos ∧
        (spawn_target World.init ⟨1, 4000, 14⟩).target_pos ≤ World.init.size / 2 - 1) ∧
      ((1 : Int) = 1 → (spawn_target World.init ⟨1, 4000, 14⟩).target_type = TargetType.DANGER ∧
        (spawn_target World.init ⟨1, 4000, 14⟩).target_pos = (14 : Int) ∧
        0 ≤ (spawn_target World.init ⟨1, 4000, 14⟩).target_pos ∧
        (spawn_target World.init ⟨1, 4000, 14⟩).target_pos ≤ World.init.size / 2 - 1)) :=
  ⟨by decide, spawn_target_resets_and_places_left World.init ⟨1, 4000, 14⟩ (by decide)⟩

/-- C10: with a live target, motor movement in `World::update` is not
clamped to the track: a `move_left` at cell 0 puts the agent at −1 and a
`move_right` at cell `size − 1` puts it at `size`, outside
`[0, size − 1]`. -/
theorem update_movement_unclamped (w : World) (d : SpawnDraws)
    (htype : w.target_type ≠ TargetType.NONE) (htimer : 0 < w.target_timer)
    (hpos0 : 0 ≤ w.target_pos) (hpos1 : w.target_pos ≤ w.size - 1) :
    (w.agent_pos = 0 → ((World.update w true false d).2).agent_pos = -1) ∧
    (w.agent_pos = w.size - 1 → ((World.update w false true d).2).agent_pos = w.size) := by
  have hspawn : spawnIfExpired w d = w := by
    simp only [spawnIfExpired]
    rw [if_neg (by omega)]
  have hdrift : driftIfNoTarget w = w := by
    simp only [driftIfNoTarget]
    rw [if_pos htype]
  have htick : ∀ v : World, (tickTargetTimer v).agent_pos = v.agent_pos := by
    intro v
    simp only [tickTargetTimer]
    split_ifs <;> rfl
  constructor <;> intro hag
  · have hmove : applyMovement w true false = { w with agent_pos := w.agent_pos - 1 } := by
      simp [applyMovement]
    simp only [World.update, hspawn, hdrift, hmove]
    rw [htick]
    have hcurr : ¬(|({ w with agent_pos := w.agent_pos - 1 } : World).agent_pos
        - ({ w with agent_pos := w.agent_pos - 1 } : World).target_pos| = 0) := by
      simp only [abs_eq_zero]
      omega
    simp only [scoreAndCollide]
    rw [if_pos (by exact htype)]
    rw [if_neg hcurr]
    simp [hag]
  · have hmove : applyMovement w false true = { w with agent_pos := w.agent_pos + 1 } := by
      simp [applyMovement]
    simp only [World.update, hspawn, hdrift, hmove]
    rw [htick]
    have hcurr : ¬(|({ w with agent_pos := w.agent_pos + 1 } : World).agent_pos
        - ({ w with agent_pos := w.agent_pos + 1 } : World).target_pos| = 0) := by
      simp only [abs_eq_zero]
      omega
    simp only [scoreAndCollide]
    rw [if_pos (by exact htype)]
    rw [if_neg hcurr]
    simp [hag]

/-- World with a FOOD target at cell 5 and the agent at the left edge. -/
def worldLeftEdge : World :=
  { size := 30, agent_pos := 0, target_pos := 5, target_type := TargetType.FOOD,
    target_timer := 100, food_eaten := 0, danger_hit := 0 }

/-- World with a FOOD target at cell 5 and the agent at the right edge. -/
def worldRightEdge : World :=
  { size := 30, agent_pos := 29, target_pos := 5, target_type := TargetType.FOOD,
    target_timer := 100, food_eaten := 0, danger_hit := 0 }

/-- Witness for C10: concrete worlds with a FOOD target at cell 5, once
with the agent at 0 moving left (ends at −1) and once at 29 moving right
(ends at 30). -/
theorem update_movement_unclamped_witness :
    (worldLeftEdge.target_type ≠ TargetType.NONE ∧
      ((World.update worldLeftEdge true false ⟨0, 3000, 0⟩).2).agent_pos = -1) ∧
    ((World.update worldRightEdge false true ⟨0, 3000, 0⟩).2).agent_pos = 30 := by
  refine ⟨⟨by decide, ?_⟩, ?_⟩
  · exact (update_movement_unclamped worldLeftEdge ⟨0, 3000, 0⟩ (by decide) (by decide)
      (by decide) (by decide)).1 rfl
  · exact (update_movement_unclamped worldRightEdge ⟨0, 3000, 0⟩ (by decide) (by decide)
      (by decide) (by decide)).2 (by decide)
